import Mathlib

/-!
A verification development for the core of the lookml-support extension:
the LookML formatter (src/formatter.ts), the simplified fallback parser
(linter/parser.ts) and the lint-rule engine (linter/rules.ts).

Every definition is a direct shallow embedding of the corresponding
TypeScript function, working on `List Char` (one list per line) so that all
string and regex operations of the source are modelled explicitly.  JS
regexes are embedded as bespoke scanning functions that reproduce the
leftmost-match, greedy-with-forced-backtracking behaviour of the concrete
patterns appearing in the source.
-/

namespace LookML

/-- The character class [a-zA-Z0-9_] used by the word-ish regexes of the
source (block names, field names, reference identifiers). -/
def isWordChar (c : Char) : Bool :=
  ('a' ≤ c && c ≤ 'z') || ('A' ≤ c && c ≤ 'Z') || ('0' ≤ c && c ≤ '9') || c == '_'

/-- JS whitespace class \s restricted to the ASCII characters that can occur
in the documents considered here (space, tab, newline, carriage return,
vertical tab, form feed). -/
def isWsChar (c : Char) : Bool :=
  c == ' ' || c == '\t' || c == '\n' || c == '\r' || c == '\x0b' || c == '\x0c'

/-- Lower-case an ASCII letter (identity elsewhere); models the
case-insensitive regex flag. -/
def lowerChar (c : Char) : Char :=
  if 'A' ≤ c && c ≤ 'Z' then Char.ofNat (c.toNat + 32) else c

/-- Upper-case an ASCII letter (identity elsewhere); models
String.prototype.toUpperCase on the keyword lists of the source. -/
def upperChar (c : Char) : Char :=
  if 'a' ≤ c && c ≤ 'z' then Char.ofNat (c.toNat - 32) else c

/-- Does the pattern occur literally at the head of the list? -/
def hasPre : List Char → List Char → Bool
  | [], _ => true
  | _ :: _, [] => false
  | p :: ps, c :: cs => p == c && hasPre ps cs

/-- Case-insensitive variant of `hasPre`. -/
def ciPre : List Char → List Char → Bool
  | [], _ => true
  | _ :: _, [] => false
  | p :: ps, c :: cs => lowerChar p == lowerChar c && ciPre ps cs

/-- Does the pattern occur literally anywhere in the list
(String.prototype.includes)? -/
def hasSub (pat : List Char) : List Char → Bool
  | [] => hasPre pat []
  | c :: cs => hasPre pat (c :: cs) || hasSub pat cs

/-- String.prototype.trim restricted to the line in hand. -/
def trimL (l : List Char) : List Char :=
  ((l.dropWhile isWsChar).reverse.dropWhile isWsChar).reverse

/-- String.prototype.trimStart. -/
def trimLeadL (l : List Char) : List Char := l.dropWhile isWsChar

/-- String.prototype.endsWith. -/
def endsWithL (pat l : List Char) : Bool := hasPre pat.reverse l.reverse

/-- indentString.repeat(n) for a given single-level indent string. -/
def repIndent (ind : List Char) (n : Nat) : List Char :=
  List.flatten (List.replicate n ind)

/-- After a candidate keyword match there must be a word boundary: the rest
of the line starts with a non-word character or is empty. -/
def wbAfter (w l : List Char) : Bool :=
  match l.drop w.length with
  | [] => true
  | d :: _ => !isWordChar d

/-- Core of String.replace with a /\bKW\b/i regex (no global flag): replace
the first case-insensitive whole-word occurrence of `w` with `canon`,
tracking whether the previous character was a word character to decide the
left boundary. -/
def replaceWordCIAux (w canon : List Char) : Bool → List Char → List Char
  | _, [] => []
  | prevWord, c :: cs =>
    if !prevWord && ciPre w (c :: cs) && wbAfter w (c :: cs) then
      canon ++ (c :: cs).drop w.length
    else
      c :: replaceWordCIAux w canon (isWordChar c) cs

/-- String.replace of the first case-insensitive whole-word occurrence. -/
def replaceWordCI (w canon l : List Char) : List Char :=
  replaceWordCIAux w canon false l

/-- Core of String.replace with a /\bW1\s+W2\b/i regex (no global flag):
the run of whitespace between the two words is forced to be maximal because
the second word starts with a non-whitespace character. -/
def replacePairCIAux (w1 w2 canon : List Char) : Bool → List Char → List Char
  | _, [] => []
  | prevWord, c :: cs =>
    let l := c :: cs
    let rest1 := l.drop w1.length
    let wsRun := rest1.takeWhile isWsChar
    let rest2 := rest1.drop wsRun.length
    if !prevWord && ciPre w1 l && wsRun.length ≥ 1 && ciPre w2 rest2 &&
        wbAfter w2 rest2 then
      canon ++ rest2.drop w2.length
    else
      c :: replacePairCIAux w1 w2 canon (isWordChar c) cs

/-- String.replace of the first case-insensitive two-word keyword. -/
def replacePairCI (w1 w2 canon l : List Char) : List Char :=
  replacePairCIAux w1 w2 canon false l

/-- Split a keyword at its first space, as keyword.split(' ') does for the
two-word entries of the keyword lists. -/
def splitFirstSpace (w : List Char) : Option (List Char × List Char) :=
  let before := w.takeWhile (fun c => c != ' ')
  let rest := w.drop before.length
  match rest with
  | [] => none
  | _ :: after => some (before, after)

/-- Apply one entry of the sqlKeywords list exactly as the forEach body of
formatSqlKeywords does: two-word keywords via the flexible \s+ regex,
single-word keywords via a plain word-boundary regex, always replacing only
the first match (the source regexes carry no global flag). -/
def applySqlKeyword (l : List Char) (kw : List Char) : List Char :=
  match splitFirstSpace kw with
  | some (w1, w2) => replacePairCI w1 w2 kw l
  | none => replaceWordCI kw kw l

/-- The fixed keyword list of LookMLFormatter.formatSqlKeywords, in source
order. -/
def sqlKeywords : List (List Char) :=
  ["SELECT".data, "FROM".data, "WHERE".data, "GROUP BY".data, "ORDER BY".data,
   "HAVING".data, "JOIN".data, "LEFT JOIN".data, "RIGHT JOIN".data,
   "INNER JOIN".data, "FULL JOIN".data, "OUTER JOIN".data, "ON".data,
   "AND".data, "OR".data, "AS".data, "WITH".data, "UNION".data, "EXCEPT".data,
   "INTERSECT".data, "CASE".data, "WHEN".data, "THEN".data, "ELSE".data,
   "END".data, "LIMIT".data, "OFFSET".data, "COUNT".data, "SUM".data,
   "AVG".data, "MIN".data, "MAX".data, "BETWEEN".data, "IN".data,
   "EXISTS".data, "DISTINCT".data, "ALL".data]

/-- The operator characters [<>=!] of the spacing regexes. -/
def isOpChar (c : Char) : Bool :=
  c == '<' || c == '>' || c == '=' || c == '!'

/-- Global replace of /([<>=!])([^=<>\s])/ with a space in between; both
matched characters are consumed, as in JS global replacement. -/
def opSpaceAfter : List Char → List Char
  | c1 :: c2 :: rest =>
    if isOpChar c1 && !(c2 == '=' || c2 == '<' || c2 == '>') && !isWsChar c2
    then c1 :: ' ' :: c2 :: opSpaceAfter rest
    else c1 :: opSpaceAfter (c2 :: rest)
  | l => l

/-- Global replace of /([^\s<>=!])([<>=!])/ with a space in between. -/
def opSpaceBefore : List Char → List Char
  | c1 :: c2 :: rest =>
    if !isWsChar c1 && !isOpChar c1 && isOpChar c2
    then c1 :: ' ' :: c2 :: opSpaceBefore rest
    else c1 :: opSpaceBefore (c2 :: rest)
  | l => l

/-- Global replace of /\s{2,}/ with a single space; a lone whitespace
character is left as it is.  Fuel-driven so that the kernel can evaluate it
(every step consumes at least one character, so fuel = length suffices). -/
def collapseWsF : Nat → List Char → List Char
  | 0, l => l
  | fuel + 1, c1 :: c2 :: rest =>
    if isWsChar c1 && isWsChar c2 then
      ' ' :: collapseWsF fuel (rest.dropWhile isWsChar)
    else c1 :: collapseWsF fuel (c2 :: rest)
  | _, l => l

/-- Global replace of /\s{2,}/ with a single space. -/
def collapseWs (l : List Char) : List Char := collapseWsF l.length l

/-- LookMLFormatter.formatSqlKeywords on one line: fold the keyword list in
source order, then run the three operator-spacing replacements. -/
def formatSqlKeywordsL (line : List Char) : List Char :=
  collapseWs (opSpaceBefore (opSpaceAfter (sqlKeywords.foldl applySqlKeyword line)))

/-- String-level wrapper for LookMLFormatter.formatSqlKeywords. -/
def formatSqlKeywords (line : String) : String :=
  String.mk (formatSqlKeywordsL line.data)

/-- The lower-case keyword list of LookMLFormatter.formatSqlWithLookMLVars,
in source order. -/
def lookmlVarKeywords : List (List Char) :=
  ["where".data, "and".data, "or".data, "from".data, "join".data,
   "group by".data, "order by".data, "having".data]

/-- Apply one entry of the lookmlVarKeywords list: first case-insensitive
match replaced by keyword.toUpperCase(). -/
def applyLookMLVarKeyword (l : List Char) (kw : List Char) : List Char :=
  match splitFirstSpace kw with
  | some (w1, w2) => replacePairCI w1 w2 (kw.map upperChar) l
  | none => replaceWordCI kw (kw.map upperChar) l

/-- LookMLFormatter.formatSqlWithLookMLVars on one line: only keyword
upper-casing, no operator spacing. -/
def formatSqlWithLookMLVarsL (line : List Char) : List Char :=
  lookmlVarKeywords.foldl applyLookMLVarKeyword line

/-- String-level wrapper for LookMLFormatter.formatSqlWithLookMLVars. -/
def formatSqlWithLookMLVars (line : String) : String :=
  String.mk (formatSqlWithLookMLVarsL line.data)

/-- Formatter configuration: indent options handed to the constructor plus
the two advanced-formatting flags. -/
structure FormatConfig where
  indentSize : Nat
  useSpaces : Bool
  groupFieldsByType : Bool
  sortFields : Bool

/-- this.indentString of the formatter constructor. -/
def indentString (cfg : FormatConfig) : List Char :=
  if cfg.useSpaces then List.replicate cfg.indentSize ' ' else ['\t']

/-- Search for /:\s*\{\s*$/ anywhere in a line. -/
def colonBraceEnd : List Char → Bool
  | [] => false
  | ':' :: rest =>
    (match rest.dropWhile isWsChar with
     | '{' :: r2 => r2.all isWsChar
     | _ => false) || colonBraceEnd rest
  | _ :: rest => colonBraceEnd rest

/-- The block-open test of the formatter:
trimmedLine.match(/:\s*\{\s*$/) || trimmedLine.endsWith('{'). -/
def isBlockOpenLine (t : List Char) : Bool :=
  colonBraceEnd t || endsWithL "\x7b".data t

/-- Split at the first colon: (substring before, substring after), or none
when the line has no colon (indexOf / substring in the source). -/
def splitFirstColon (l : List Char) : Option (List Char × List Char) :=
  let before := l.takeWhile (fun c => c != ':')
  if before.length == l.length then none
  else some (before, l.drop (before.length + 1))

/-- Match of /^([a-zA-Z0-9_]+)\s*:\s*([a-zA-Z0-9_]+)/ returning the two
captured groups (block type and block name). -/
def blockMatchWithName (l : List Char) : Option (List Char × List Char) :=
  let w1 := l.takeWhile isWordChar
  if w1.isEmpty then none else
  match (l.drop w1.length).dropWhile isWsChar with
  | ':' :: r2 =>
    let w2 := (r2.dropWhile isWsChar).takeWhile isWordChar
    if w2.isEmpty then none else some (w1, w2)
  | _ => none

/-- Match of /^([a-zA-Z0-9_]+)\s*:\s*\{/ returning the captured block type. -/
def blockMatchNoName (l : List Char) : Option (List Char) :=
  let w1 := l.takeWhile isWordChar
  if w1.isEmpty then none else
  match (l.drop w1.length).dropWhile isWsChar with
  | ':' :: r2 =>
    match r2.dropWhile isWsChar with
    | '{' :: _ => some w1
    | _ => none
  | _ => none

/-- Match of /^([a-zA-Z0-9_]+)\s*:/ returning the captured group (block
type extraction in formatLines). -/
def blockMatchColon (l : List Char) : Option (List Char) :=
  let w := l.takeWhile isWordChar
  if w.isEmpty then none
  else match (l.drop w.length).dropWhile isWsChar with
    | ':' :: _ => some w
    | _ => none

/-- The SQL-bearing property names of the block classification regexes. -/
def sqlPropNames : List (List Char) :=
  ["sql".data, "sql_on".data, "sql_where".data, "sql_always_where".data,
   "sql_trigger_value".data, "html".data]

/-- Does some alternative of (sql|sql_on|sql_where|sql_always_where|
sql_trigger_value|html) followed by \s*: match at the head of the list (with
\s*$ additionally required when anchorEnd)? -/
def sqlPropAt (anchorEnd : Bool) (props : List (List Char)) (l : List Char) : Bool :=
  props.any fun w =>
    hasPre w l &&
    (match (l.drop w.length).dropWhile isWsChar with
     | ':' :: r2 => !anchorEnd || r2.all isWsChar
     | _ => false)

/-- Scan a line for \b(prop-alternatives)\s*: keeping track of whether the
previous character is a word character (the \b boundary). -/
def sqlPropSearch (anchorEnd : Bool) (props : List (List Char)) :
    Bool → List Char → Bool
  | _, [] => false
  | prevWord, c :: cs =>
    (!prevWord && sqlPropAt anchorEnd props (c :: cs)) ||
      sqlPropSearch anchorEnd props (isWordChar c) cs

/-- Test of /\b(sql|sql_on|sql_where|sql_always_where|sql_trigger_value|html)\s*:/. -/
def hasSqlProp (l : List Char) : Bool := sqlPropSearch false sqlPropNames false l

/-- Test of the same alternation with the trailing \s*$ anchor. -/
def hasSqlPropEnd (l : List Char) : Bool := sqlPropSearch true sqlPropNames false l

/-- Test of /\b(sql|sql_on|sql_where|sql_always_where|sql_trigger_value)\s*:\s*$/
(the html-less variant used on property lines in formatLines). -/
def hasSqlPropEndNoHtml (l : List Char) : Bool :=
  sqlPropSearch true
    ["sql".data, "sql_on".data, "sql_where".data, "sql_always_where".data,
     "sql_trigger_value".data] false l

/-- Case-insensitive prefix of W1\s+W2 (used for GROUP\s+BY and ORDER\s+BY). -/
def ciPairPre (w1 w2 l : List Char) : Bool :=
  ciPre w1 l &&
  (let r := l.drop w1.length
   let ws := r.takeWhile isWsChar
   ws.length ≥ 1 && ciPre w2 (r.drop ws.length))

/-- Test of /^\s*(SELECT|FROM|WHERE|GROUP\s+BY|ORDER\s+BY|HAVING|LIMIT|JOIN|UNION)/i
(the short main-keyword list used in parseViews). -/
def isMainSqlKeywordShort (l : List Char) : Bool :=
  let r := l.dropWhile isWsChar
  ciPre "SELECT".data r || ciPre "FROM".data r || ciPre "WHERE".data r ||
  ciPairPre "GROUP".data "BY".data r || ciPairPre "ORDER".data "BY".data r ||
  ciPre "HAVING".data r || ciPre "LIMIT".data r || ciPre "JOIN".data r ||
  ciPre "UNION".data r

/-- Test of the longer variant that additionally lists the literal
single-space JOIN alternatives (used in addFormattedFieldContent and in
formatLines SQL content handling). -/
def isMainSqlKeywordLong (l : List Char) : Bool :=
  let r := l.dropWhile isWsChar
  isMainSqlKeywordShort l ||
  ciPre "LEFT JOIN".data r || ciPre "RIGHT JOIN".data r ||
  ciPre "INNER JOIN".data r || ciPre "FULL JOIN".data r ||
  ciPre "OUTER JOIN".data r

/-- LookMLFormatter.isFormatterGeneratedComment: test of
/^#\s*-----\s*.*\s*-----\s*$/ (the lazy middle absorbs everything up to a
final ----- that may only be followed by whitespace). -/
def isFormatterGeneratedCommentL (l : List Char) : Bool :=
  match l with
  | '#' :: rest =>
    let r := rest.dropWhile isWsChar
    if hasPre "-----".data r then
      let r2 := r.drop 5
      let r3 := (r2.reverse.dropWhile isWsChar).reverse
      endsWithL "-----".data r3
    else false
  | _ => false

/-- String-level wrapper for LookMLFormatter.isFormatterGeneratedComment. -/
def isFormatterGeneratedComment (s : String) : Bool :=
  isFormatterGeneratedCommentL s.data

/-- LookMLFormatter.formatLookMLProperty. -/
def formatLookMLPropertyL (line : List Char) : List Char :=
  match splitFirstColon line with
  | none => line
  | some (bef, aft) =>
    let propName := trimL bef
    let propValue := trimL aft
    let propValue :=
      if endsWithL ";;".data propValue then
        if !endsWithL " ;;".data propValue then
          trimL (propValue.take (propValue.length - 2)) ++ " ;;".data
        else propValue
      else propValue
    propName ++ ": ".data ++ propValue

/-- String-level wrapper for LookMLFormatter.formatLookMLProperty. -/
def formatLookMLProperty (line : String) : String :=
  String.mk (formatLookMLPropertyL line.data)

/-- LookMLFormatter.formatBlockOpener. -/
def formatBlockOpenerL (line : List Char) : List Char :=
  match splitFirstColon line with
  | none => line
  | some (bef, aft) => trimL bef ++ ": ".data ++ trimL aft

/-- LookMLFormatter.isFieldType. -/
def isFieldType (t : List Char) : Bool :=
  t == "dimension".data || t == "dimension_group".data || t == "measure".data ||
  t == "parameter".data || t == "filter".data

/-- parts[0] of String.prototype.split(pat): everything before the first
occurrence of the separator (the whole list when the separator is absent). -/
def takeUntilSub (pat : List Char) : List Char → List Char
  | [] => []
  | c :: cs => if hasPre pat (c :: cs) then [] else c :: takeUntilSub pat cs

/-- A (type, indent) entry of the block stack kept by formatLines. -/
structure SimpleBlockInfo where
  type : List Char
  indent : Nat

/-- The mutable state of the formatLines loop. -/
structure FmtLinesState where
  out : List (List Char)
  indentLevel : Nat
  inSqlBlock : Bool
  sqlBlockIndent : Nat
  blockStack : List SimpleBlockInfo

/-- One iteration of the formatLines loop (one input line), branch for
branch as in the source. -/
def formatLinesStep (cfg : FormatConfig) (st : FmtLinesState) (line : List Char) :
    FmtLinesState :=
  let ind := indentString cfg
  let t := trimL line
  if t.isEmpty then { st with out := st.out ++ [[]] }
  else if isBlockOpenLine t then
    let blockType := (blockMatchColon t).getD "unknown".data
    let t2 := match splitFirstColon t with
      | some (bef, aft) => trimL bef ++ ": ".data ++ trimL aft
      | none => t
    { st with out := st.out ++ [repIndent ind st.indentLevel ++ t2],
              blockStack := ⟨blockType, st.indentLevel⟩ :: st.blockStack,
              indentLevel := st.indentLevel + 1 }
  else if t == "\x7d".data || t == "\x7d ;;".data then
    let lvl := st.indentLevel - 1
    { st with indentLevel := lvl,
              blockStack := st.blockStack.tail,
              out := st.out ++ [repIndent ind lvl ++ t] }
  else if !st.inSqlBlock && (hasSqlPropEnd t || (hasSqlProp t && !t.contains '{')) then
    { st with out := st.out ++ [repIndent ind st.indentLevel ++ formatLookMLPropertyL t],
              inSqlBlock := true, sqlBlockIndent := st.indentLevel }
  else if st.inSqlBlock && (t == ";;".data || endsWithL ";;".data t) then
    if t == ";;".data || t == "; ;".data then
      { st with out := st.out ++ [repIndent ind st.indentLevel ++ ";;".data],
                inSqlBlock := false }
    else
      let sqlContent := trimL (takeUntilSub ";;".data t)
      { st with out := st.out ++
          [repIndent ind st.sqlBlockIndent ++ formatSqlKeywordsL sqlContent ++ " ;;".data],
                inSqlBlock := false }
  else if st.inSqlBlock then
    let t2 :=
      if !hasSub "\x7b%".data t && !hasSub "\x7b\x7b".data t && !hasSub "$\x7b".data t then
        formatSqlKeywordsL t
      else if hasSub "$\x7b".data t then formatSqlWithLookMLVarsL t
      else t
    let isMain := isMainSqlKeywordLong t2
    let isDerived := st.blockStack.any (fun b => b.type == "derived_table".data)
    let effectiveIndent :=
      if isDerived then (if isMain then 3 else 4)
      else (if isMain then st.sqlBlockIndent + 1 else st.sqlBlockIndent + 2)
    { st with out := st.out ++ [repIndent ind effectiveIndent ++ trimLeadL t2] }
  else if t.contains ':' && !endsWithL "\x7b".data t then
    let f := formatLookMLPropertyL t
    let f :=
      if endsWithL ";;".data f then
        if !endsWithL " ;;".data f then trimL (takeUntilSub ";;".data f) ++ " ;;".data
        else f
      else f
    let st :=
      if hasSqlPropEndNoHtml f then
        { st with inSqlBlock := true, sqlBlockIndent := st.indentLevel }
      else st
    { st with out := st.out ++ [repIndent ind st.indentLevel ++ f] }
  else
    { st with out := st.out ++ [repIndent ind st.indentLevel ++ t] }

/-- LookMLFormatter.formatLines: the original formatter used when grouping
and sorting are disabled. -/
def formatLinesL (cfg : FormatConfig) (lines : List (List Char)) : List (List Char) :=
  (lines.foldl (formatLinesStep cfg) ⟨[], 0, false, 0, []⟩).out

/-- A {type, indent, name} entry of the block stack kept by parseViews (the
head of the list is the most recently pushed entry). -/
structure BlockEntry where
  type : List Char
  indent : Nat
  name : List Char

/-- The LookMLBlock interface of the source (a field block of a view). -/
structure LookMLBlock where
  type : List Char
  name : List Char
  startLine : Nat
  endLine : Int
  content : List (List Char)
  rawContent : List (List Char)
  indent : Nat
  comments : List (List Char)
  parentBlocks : List BlockEntry

/-- The LookMLView interface of the source. -/
structure LookMLView where
  name : List Char
  startLine : Nat
  endLine : Int
  header : List (List Char)
  footer : List (List Char)
  fields : List LookMLBlock
  nonFieldBlocks : List (List Char)

/-- The mutable state of the parseViews loop.  The source pushes a field
onto view.fields when it opens and keeps mutating it through the shared
reference; here the field under construction lives in currentField and is
appended to the view when it is finished (on its closing brace, when the
next field opens, or when the view closes while it is still open), which
realises the same final contents. -/
structure ParseViewsState where
  views : List LookMLView
  inView : Bool
  currentView : Option LookMLView
  blockStack : List BlockEntry
  indentLevel : Nat
  currentField : Option LookMLBlock
  pendingComments : List (List Char)
  inSqlBlock : Bool
  sqlBlockIndent : Nat
  hasEncounteredFieldInView : Bool

/-- Apply a mutation to the active view (currentView!.… in the source). -/
def modifyView (st : ParseViewsState) (f : LookMLView → LookMLView) :
    ParseViewsState :=
  match st.currentView with
  | some v => { st with currentView := some (f v) }
  | none => st

/-- currentView!.nonFieldBlocks.push(l). -/
def pushNonField (st : ParseViewsState) (l : List Char) : ParseViewsState :=
  modifyView st fun v => { v with nonFieldBlocks := v.nonFieldBlocks ++ [l] }

/-- Move the finished field under construction into the active view's field
list (see the comment on ParseViewsState). -/
def flushField (st : ParseViewsState) : ParseViewsState :=
  match st.currentField with
  | some f =>
    { modifyView st (fun v => { v with fields := v.fields ++ [f] }) with
        currentField := none }
  | none => st

/-- One iteration of the parseViews loop (line index and line), branch for
branch as in the source. -/
def parseViewsStep (cfg : FormatConfig) (st : ParseViewsState)
    (p : Nat × List Char) : ParseViewsState :=
  let i := p.1
  let line := p.2
  let ind := indentString cfg
  let t := trimL line
  if t.isEmpty then
    if st.inView && st.currentField.isNone then pushNonField st line else st
  else if hasPre "#".data t then
    match st.currentField with
    | some f =>
      { st with currentField := some { f with
          comments := f.comments ++ [t],
          content := f.content ++ [repIndent ind (f.indent + 1) ++ t] } }
    | none =>
      if st.inView then
        if !st.hasEncounteredFieldInView then pushNonField st t
        else { st with pendingComments := st.pendingComments ++ [t] }
      else st
  else if isBlockOpenLine t then
    let tyName : List Char × List Char :=
      match blockMatchWithName t with
      | some (ty, nm) => (ty, nm)
      | none =>
        match blockMatchNoName t with
        | some ty => (ty, [])
        | none => ([], [])
    let blockType := tyName.1
    let blockName := tyName.2
    let stack2 : List BlockEntry := ⟨blockType, st.indentLevel, blockName⟩ :: st.blockStack
    if blockType == "view".data && !st.inView then
      let newView : LookMLView :=
        { name := blockName, startLine := i, endLine := -1, header := [line],
          footer := [], fields := [], nonFieldBlocks := st.pendingComments }
      { st with blockStack := stack2, inView := true,
                hasEncounteredFieldInView := false,
                currentView := some newView, pendingComments := [],
                indentLevel := st.indentLevel + 1 }
    else if st.inView && isFieldType blockType then
      let newField : LookMLBlock :=
        { type := blockType, name := blockName, startLine := i, endLine := -1,
          content := [repIndent ind st.indentLevel ++ formatBlockOpenerL t],
          rawContent := [t], indent := st.indentLevel,
          comments := st.pendingComments, parentBlocks := stack2 }
      let st := flushField st
      { st with blockStack := stack2, hasEncounteredFieldInView := true,
                currentField := some newField, pendingComments := [],
                indentLevel := st.indentLevel + 1 }
    else if st.inView then
      match st.currentField with
      | some f =>
        { st with currentField := some { f with
            content := f.content ++ [repIndent ind st.indentLevel ++ formatBlockOpenerL t],
            rawContent := f.rawContent ++ [t] },
                  blockStack := stack2, indentLevel := st.indentLevel + 1 }
      | none =>
        { pushNonField st (repIndent ind st.indentLevel ++ formatBlockOpenerL t) with
            blockStack := stack2, indentLevel := st.indentLevel + 1 }
    else
      { st with blockStack := stack2, indentLevel := st.indentLevel + 1 }
  else if t == "\x7d".data || t == "\x7d ;;".data then
    let lvl := st.indentLevel - 1
    match st.blockStack with
    | [] => { st with indentLevel := lvl }
    | lastBlock :: restStack =>
      let st := { st with indentLevel := lvl, blockStack := restStack }
      if st.currentField.isSome && isFieldType lastBlock.type then
        match st.currentField with
        | some f =>
          flushField { st with currentField := some { f with
              content := f.content ++ [repIndent ind lvl ++ t],
              rawContent := f.rawContent ++ [t], endLine := i } }
        | none => st
      else if st.inView && lastBlock.type == "view".data then
        match st.currentView with
        | some v =>
          let dangling : List LookMLBlock :=
            match st.currentField with
            | some f => [f]
            | none => []
          let v := { v with footer := v.footer ++ [line], endLine := (i : Int),
                            fields := v.fields ++ dangling }
          { st with inView := false, views := st.views ++ [v],
                    currentView := none, currentField := none }
        | none => { st with inView := false }
      else if st.inView && st.currentField.isSome then
        match st.currentField with
        | some f =>
          { st with currentField := some { f with
              content := f.content ++ [repIndent ind lvl ++ t],
              rawContent := f.rawContent ++ [t] } }
        | none => st
      else if st.inView then
        pushNonField st line
      else st
  else if st.inView then
    match st.currentField with
    | some f =>
      let formattedLine :=
        if t.contains ':' && !endsWithL "\x7b".data t then formatLookMLPropertyL t else t
      { st with currentField := some { f with
          content := f.content ++ [repIndent ind st.indentLevel ++ formattedLine],
          rawContent := f.rawContent ++ [t] } }
    | none =>
      if !st.inSqlBlock && (hasSqlPropEnd t || (hasSqlProp t && !t.contains '{')) then
        { pushNonField st (repIndent ind st.indentLevel ++ formatLookMLPropertyL t) with
            inSqlBlock := true, sqlBlockIndent := st.indentLevel }
      else if st.inSqlBlock && endsWithL ";;".data t then
        let parts0 := takeUntilSub ";;".data t
        if hasSub ";;".data t && (trimL parts0).length > 0 then
          let fsql := formatSqlKeywordsL (trimL parts0)
          let isDerived := st.blockStack.any (fun b => b.type == "derived_table".data)
          let effectiveIndent :=
            if isDerived then (if isMainSqlKeywordShort fsql then 3 else 4)
            else st.sqlBlockIndent + 1
          { pushNonField st (repIndent ind effectiveIndent ++ fsql ++ " ;;".data) with
              inSqlBlock := false }
        else
          { pushNonField st (repIndent ind st.sqlBlockIndent ++ ";;".data) with
              inSqlBlock := false }
      else if st.inSqlBlock then
        let fl := formatSqlKeywordsL t
        let isDerived := st.blockStack.any (fun b => b.type == "derived_table".data)
        let isMain := isMainSqlKeywordShort fl
        let effectiveIndent :=
          if isDerived then (if isMain then 3 else 4)
          else (if isMain then st.sqlBlockIndent + 1 else st.sqlBlockIndent + 2)
        pushNonField st (repIndent ind effectiveIndent ++ trimLeadL fl)
      else if t.contains ':' && !endsWithL "\x7b".data t then
        pushNonField st (repIndent ind st.indentLevel ++ formatLookMLPropertyL t)
      else
        pushNonField st line
  else st

/-- LookMLFormatter.parseViews. -/
def parseViews (cfg : FormatConfig) (lines : List (List Char)) : List LookMLView :=
  (lines.enum.foldl (parseViewsStep cfg)
    ⟨[], false, none, [], 0, none, [], false, 0, false⟩).views

/-- Global replace of /color:(\w+)/ with a space after the colon (the CSS
fix applied to html content lines); fuel-driven (fuel = length suffices). -/
def replaceColorGlobalF : Nat → List Char → List Char
  | 0, l => l
  | _, [] => []
  | fuel + 1, c :: cs =>
    if hasPre "color:".data (c :: cs) then
      let rest := cs.drop 5
      let w := rest.takeWhile isWordChar
      if w.length ≥ 1 then
        "color: ".data ++ w ++ replaceColorGlobalF fuel (rest.drop w.length)
      else c :: replaceColorGlobalF fuel cs
    else c :: replaceColorGlobalF fuel cs

/-- Global replace of /color:(\w+)/ with a space after the colon. -/
def replaceColorGlobal (l : List Char) : List Char := replaceColorGlobalF l.length l

/-- Test of /\bhtml\s*:\s*$/ (detection of html content fields). -/
def hasHtmlPropEnd (l : List Char) : Bool :=
  sqlPropSearch true ["html".data] false l

/-- The loop state of addFormattedFieldContent (emitted lines, nested
indent level, in-SQL-block flag). -/
structure FieldEmitState where
  out : List (List Char)
  nested : Nat
  inSql : Bool

/-- One iteration of the addFormattedFieldContent loop over the raw content
lines of a field (from the second line on). -/
def addFieldContentStep (cfg : FormatConfig) (field : LookMLBlock)
    (st : FieldEmitState) (line : List Char) : FieldEmitState :=
  let ind := indentString cfg
  let blockIndent := field.indent + 1
  let t := trimL line
  if isBlockOpenLine t then
    { out := st.out ++ [repIndent ind st.nested ++ formatBlockOpenerL t],
      nested := st.nested + 1, inSql := st.inSql }
  else if t == "\x7d".data || t == "\x7d ;;".data then
    let n := st.nested - 1
    if n < blockIndent then
      { out := st.out ++ [repIndent ind field.indent ++ t],
        nested := blockIndent, inSql := false }
    else
      { out := st.out ++ [repIndent ind n ++ t], nested := n, inSql := false }
  else if !st.inSql && (hasSqlPropEnd t || (hasSqlProp t && !t.contains '{')) then
    { out := st.out ++ [repIndent ind st.nested ++ formatLookMLPropertyL t],
      nested := st.nested, inSql := true }
  else if st.inSql && (t == ";;".data || endsWithL ";;".data t) then
    if t == ";;".data || t == "; ;".data then
      { out := st.out ++ [repIndent ind st.nested ++ ";;".data],
        nested := st.nested, inSql := false }
    else
      let sqlContent := trimL (takeUntilSub ";;".data t)
      { out := st.out ++
          [repIndent ind st.nested ++ formatSqlKeywordsL sqlContent ++ ";;".data],
        nested := st.nested, inSql := false }
  else if st.inSql then
    let isHtmlContent := field.rawContent.any (fun l => hasHtmlPropEnd (trimL l))
    let t2 :=
      if isHtmlContent then
        if hasSub "color:".data t then replaceColorGlobal t else t
      else
        if !hasSub "\x7b%".data t && !hasSub "\x7b\x7b".data t && !hasSub "$\x7b".data t then
          formatSqlKeywordsL t
        else if hasSub "$\x7b".data t then formatSqlWithLookMLVarsL t
        else t
    let isDerived := field.parentBlocks.any (fun b => b.type == "derived_table".data)
    let isMain := isMainSqlKeywordLong t2
    let sqlIndent :=
      if isDerived then (if isMain then 3 else 4)
      else (if isMain then st.nested + 1 else st.nested + 2)
    { out := st.out ++ [repIndent ind sqlIndent ++ trimLeadL t2],
      nested := st.nested, inSql := st.inSql }
  else if t.isEmpty then
    { out := st.out ++ [[]], nested := st.nested, inSql := st.inSql }
  else if hasPre "#".data t then
    { out := st.out ++ [repIndent ind st.nested ++ t],
      nested := st.nested, inSql := st.inSql }
  else if t.contains ':' && !endsWithL "\x7b".data t then
    { out := st.out ++ [repIndent ind st.nested ++ formatLookMLPropertyL t],
      nested := st.nested, inSql := st.inSql }
  else
    { out := st.out ++ [repIndent ind st.nested ++ t],
      nested := st.nested, inSql := st.inSql }

/-- LookMLFormatter.addFormattedFieldContent. -/
def addFormattedFieldContent (cfg : FormatConfig) (output : List (List Char))
    (field : LookMLBlock) : List (List Char) :=
  let ind := indentString cfg
  let blockStart := field.content.headD []
  let blockStart :=
    if cfg.groupFieldsByType then repIndent ind 1 ++ trimLeadL blockStart
    else blockStart
  (field.rawContent.tail.foldl (addFieldContentStep cfg field)
    ⟨output ++ [blockStart], field.indent + 1, false⟩).out

/-- LookMLFormatter.addFieldSection. -/
def addFieldSection (cfg : FormatConfig) (output : List (List Char))
    (fields : List LookMLBlock) (sectionName : List Char) (indentLevel : Nat) :
    List (List Char) :=
  if fields.isEmpty then output else
  let ind := indentString cfg
  let header := "# ----- ".data ++ sectionName ++ " -----".data
  let headerPresent := output.any (fun l => trimL l == header)
  let output :=
    if cfg.groupFieldsByType && !headerPresent then
      output ++ [repIndent ind indentLevel ++ header]
    else output
  let output := fields.foldl (fun out f =>
      let out := out ++ [[]]
      let out := out ++ f.comments.map (fun c => repIndent ind indentLevel ++ c)
      addFormattedFieldContent cfg out f) output
  if cfg.groupFieldsByType then
    let footer := "# ----- End of ".data ++ sectionName ++ " -----".data
    if !(output.any (fun l => trimL l == footer)) then
      output ++ [repIndent ind indentLevel ++ footer]
    else output
  else output

/-- Strict name order used by the field sorting:
a.name.localeCompare(b.name) < 0.  On the ASCII identifier names arising
here the locale order coincides with code-point lexicographic order, which
is what this implements. -/
def nameLt : List Char → List Char → Bool
  | [], [] => false
  | [], _ :: _ => true
  | _ :: _, [] => false
  | c :: cs, d :: ds => if c == d then nameLt cs ds else decide (c < d)

/-- Stable insertion of a field in front of the first element that is not
strictly smaller (elements with equal names keep their original order, as
with Array.prototype.sort, which is stable). -/
def insertByName (f : LookMLBlock) : List LookMLBlock → List LookMLBlock
  | [] => [f]
  | g :: gs => if nameLt g.name f.name then g :: insertByName f gs else f :: g :: gs

/-- Stable sort of a field list by name (fields.sort((a, b) =>
a.name.localeCompare(b.name))). -/
def sortByName : List LookMLBlock → List LookMLBlock
  | [] => []
  | f :: fs => insertByName f (sortByName fs)

/-- LookMLFormatter.organizeViewFields. -/
def organizeViewFields (cfg : FormatConfig) (view : LookMLView)
    (output : List (List Char)) : List (List Char) :=
  let ind := indentString cfg
  let filters := view.fields.filter (fun f => f.type == "filter".data)
  let parameters := view.fields.filter (fun f => f.type == "parameter".data)
  let dimensions := view.fields.filter (fun f => f.type == "dimension".data)
  let dimensionGroups := view.fields.filter (fun f => f.type == "dimension_group".data)
  let measures := view.fields.filter (fun f => f.type == "measure".data)
  let others := view.fields.filter (fun f => !isFieldType f.type)
  let filters := if cfg.sortFields then sortByName filters else filters
  let parameters := if cfg.sortFields then sortByName parameters else parameters
  let dimensions := if cfg.sortFields then sortByName dimensions else dimensions
  let dimensionGroups := if cfg.sortFields then sortByName dimensionGroups else dimensionGroups
  let measures := if cfg.sortFields then sortByName measures else measures
  let fieldIndent := match view.fields with | [] => 1 | f :: _ => f.indent
  let acc : List (List Char) × Bool := (output, false)
  let acc :=
    if filters.length > 0 then
      ((addFieldSection cfg (if !acc.2 then acc.1 ++ [[]] else acc.1) filters
          "Filters".data fieldIndent), true)
    else acc
  let acc :=
    if parameters.length > 0 then
      ((addFieldSection cfg (if !acc.2 then acc.1 ++ [[]] else acc.1) parameters
          "Parameters".data fieldIndent), true)
    else acc
  let acc :=
    if dimensions.length > 0 || dimensionGroups.length > 0 then
      ((addFieldSection cfg (if !acc.2 then acc.1 ++ [[]] else acc.1)
          (dimensions ++ dimensionGroups) "Dimensions".data fieldIndent), true)
    else acc
  let acc :=
    if measures.length > 0 then
      ((addFieldSection cfg (if !acc.2 then acc.1 ++ [[]] else acc.1) measures
          "Measures".data fieldIndent), true)
    else acc
  others.foldl (fun out f =>
      let out := out ++ [[]]
      let out := out ++ f.comments.map (fun c => repIndent ind fieldIndent ++ c)
      addFormattedFieldContent cfg out f) acc.1

/-- LookMLFormatter.formatView. -/
def formatView (cfg : FormatConfig) (view : LookMLView)
    (output : List (List Char)) : List (List Char) :=
  let ind := indentString cfg
  let output := output ++ view.header
  let nonEmptyNonFieldBlocks := view.nonFieldBlocks.filter (fun l =>
      let tr := trimL l
      !tr.isEmpty && !isFormatterGeneratedCommentL tr)
  let output := output ++ nonEmptyNonFieldBlocks.map (fun l =>
      let tr := trimL l
      if hasPre "#".data tr then repIndent ind 1 ++ tr
      else if tr.contains ':' && !tr.contains '{' then repIndent ind 1 ++ tr
      else l)
  let output :=
    if cfg.groupFieldsByType || cfg.sortFields then
      organizeViewFields cfg view output
    else
      view.fields.foldl (fun out f => out ++ f.content ++ [[]]) output
  output ++ view.footer

/-- LookMLFormatter.formatWithAdvancedOptions. -/
def formatWithAdvancedOptions (cfg : FormatConfig) (lines : List (List Char)) :
    List (List Char) :=
  let views := parseViews cfg lines
  if views.isEmpty then formatLinesL cfg lines
  else
    let acc : List (List Char) × Nat := views.foldl
      (fun (acc : List (List Char) × Nat) view =>
        let out := acc.1 ++ ((lines.drop acc.2).take (view.startLine - acc.2))
        (formatView cfg view out, (view.endLine + 1).toNat))
      ([], 0)
    acc.1 ++ lines.drop acc.2

/-- document.getText().split(/\r?\n/). -/
def splitNL : List Char → List (List Char)
  | [] => [[]]
  | '\n' :: rest => [] :: splitNL rest
  | '\r' :: '\n' :: rest => [] :: splitNL rest
  | c :: rest =>
    match splitNL rest with
    | [] => [[c]]
    | l :: ls => (c :: l) :: ls

/-- LookMLFormatter.format: returns none for the empty edit list (the
formatted text equals the document) and some replacement text otherwise. -/
def formatDocument (cfg : FormatConfig) (text : String) : Option String :=
  let lines := splitNL text.data
  let formatted :=
    if !cfg.groupFieldsByType && !cfg.sortFields then formatLinesL cfg lines
    else formatWithAdvancedOptions cfg lines
  let ftext := List.intercalate ['\n'] formatted
  if ftext == text.data then none else some (String.mk ftext)

/-- Apply the formatter as an editor would: take the replacement text when
there is an edit, keep the document text otherwise. -/
def formatApply (cfg : FormatConfig) (text : String) : String :=
  (formatDocument cfg text).getD text

/-- The SimpleField interface of the fallback parser (linter/parser.ts). -/
structure SimpleField where
  name : String
  type : Option String := none
  sql : Option String := none
  primary_key : Option Bool := none
  html : Option String := none
  label : Option String := none
  description : Option String := none
deriving DecidableEq

/-- The derived_table value built by the fallback parser. -/
structure DerivedTable where
  sql : Option String := none
deriving DecidableEq

/-- The SimpleView interface of the fallback parser.  JS objects keyed by
name are modelled as ordered association lists (for...in iterates in
insertion order). -/
structure SimpleView where
  name : String
  sql_table_name : Option String := none
  derived_table : Option DerivedTable := none
  dimensions : List (String × SimpleField) := []
  dimension_groups : List (String × SimpleField) := []
  measures : List (String × SimpleField) := []
  filters : List (String × SimpleField) := []
deriving DecidableEq

/-- The SimpleJoin interface of the fallback parser. -/
structure SimpleJoin where
  name : String
  sql_on : Option String := none
  relationship : Option String := none
deriving DecidableEq

/-- The SimpleExplore interface of the fallback parser. -/
structure SimpleExplore where
  name : String
  view_name : Option String := none
  joins : List (String × SimpleJoin) := []
deriving DecidableEq

/-- The SimpleModel interface of the fallback parser. -/
structure SimpleModel where
  name : String
  connection : Option String := none
  includes : Option (List String) := none
deriving DecidableEq

/-- The ParsedLookML structure consumed by the rules.  An absent collection
behaves exactly like an empty one in every rule (the source only ever
iterates it after a truthiness guard), so both are modelled by []. -/
structure ParsedLookML where
  views : List (String × SimpleView) := []
  explores : List (String × SimpleExplore) := []
  models : List (String × SimpleModel) := []
deriving DecidableEq

/-- The RuleViolation record of linter/types.ts. -/
structure RuleViolation where
  ruleId : String
  message : String
  severity : String
  path : List String
deriving DecidableEq

/-- JS truthiness of an optional string property (undefined and the empty
string are falsy). -/
def strTruthy : Option String → Bool
  | some s => !s.isEmpty
  | none => false

/-- Test of /^pk\d*$/i on a dimension name. -/
def pkNameMatches (name : String) : Bool :=
  match name.data.map lowerChar with
  | 'p' :: 'k' :: rest => rest.all (fun c => '0' ≤ c && c ≤ '9')
  | _ => false

/-- Rule K1: checkPrimaryKeys of linter/rules.ts. -/
def checkPrimaryKeys (lookml : ParsedLookML) : List RuleViolation :=
  lookml.views.foldl (fun violations nv =>
    let viewName := nv.1
    let view := nv.2
    if !view.derived_table.isSome && !strTruthy view.sql_table_name then
      violations
    else
      let pkDimensions := view.dimensions.filter
        (fun d => d.2.primary_key == some true)
      if pkDimensions.isEmpty then
        violations ++ [⟨"k1",
          "View \"" ++ viewName ++ "\" is missing a primary key dimension",
          "warning", ["views", viewName]⟩]
      else
        violations ++ pkDimensions.filterMap (fun d =>
          if !pkNameMatches d.1 then
            some ⟨"k1",
              "Primary key dimension \"" ++ d.1 ++ "\" in view \"" ++ viewName ++
                "\" should follow naming convention (pk)",
              "warning", ["views", viewName, "dimensions", d.1]⟩
          else none)) []

/-- Global replace of /\${[^}]+}/ with the empty string; fuel-driven (every
step consumes at least one character, so fuel = length suffices). -/
def stripDollarRefsF : Nat → List Char → List Char
  | 0, l => l
  | _, [] => []
  | fuel + 1, '$' :: '{' :: rest =>
    let body := rest.takeWhile (fun c => c != '}')
    if body.length ≥ 1 && hasPre "\x7d".data (rest.drop body.length) then
      stripDollarRefsF fuel (rest.drop (body.length + 1))
    else '$' :: stripDollarRefsF fuel ('{' :: rest)
  | fuel + 1, c :: cs => c :: stripDollarRefsF fuel cs

/-- Global replace of /\${[^}]+}/ with the empty string. -/
def stripDollarRefs (l : List Char) : List Char := stripDollarRefsF l.length l

/-- Global replace of /\{\{[^}]+\}\}/ with the empty string; fuel-driven. -/
def stripDoubleBraceF : Nat → List Char → List Char
  | 0, l => l
  | _, [] => []
  | fuel + 1, '{' :: '{' :: rest =>
    let body := rest.takeWhile (fun c => c != '}')
    if body.length ≥ 1 && hasPre "\x7d\x7d".data (rest.drop body.length) then
      stripDoubleBraceF fuel (rest.drop (body.length + 2))
    else '{' :: stripDoubleBraceF fuel ('{' :: rest)
  | fuel + 1, c :: cs => c :: stripDoubleBraceF fuel cs

/-- Global replace of /\{\{[^}]+\}\}/ with the empty string. -/
def stripDoubleBrace (l : List Char) : List Char := stripDoubleBraceF l.length l

/-- Global replace of /\{%[^%]+%\}/ with the empty string; fuel-driven. -/
def stripPercentTagF : Nat → List Char → List Char
  | 0, l => l
  | _, [] => []
  | fuel + 1, '{' :: '%' :: rest =>
    let body := rest.takeWhile (fun c => c != '%')
    if body.length ≥ 1 && hasPre "%\x7d".data (rest.drop body.length) then
      stripPercentTagF fuel (rest.drop (body.length + 2))
    else '{' :: stripPercentTagF fuel ('%' :: rest)
  | fuel + 1, c :: cs => c :: stripPercentTagF fuel cs

/-- Global replace of /\{%[^%]+%\}/ with the empty string. -/
def stripPercentTag (l : List Char) : List Char := stripPercentTagF l.length l

/-- The three LookML-syntax replacements applied to sql_on before the
direct-reference scan, in source order. -/
def cleanSqlOn (s : String) : List Char :=
  stripPercentTag (stripDoubleBrace (stripDollarRefs s.data))

/-- The character class [a-zA-Z0-9._] (first part of directTablePattern). -/
def isC1 (c : Char) : Bool := isWordChar c || c == '.'

/-- The character class [a-zA-Z0-9 ._] (second part of directTablePattern,
which also allows spaces). -/
def isC2 (c : Char) : Bool := isC1 c || c == ' '

/-- Can the greedy first part of /[a-zA-Z0-9._]+\.[a-zA-Z0-9 ._]+/ stop
after k characters: character k must be a dot followed by a C2 character. -/
def e1TryK (l : List Char) (k : Nat) : Bool :=
  k ≥ 1 &&
  (match l.drop k with
   | '.' :: d :: _ => isC2 d
   | _ => false)

/-- The largest admissible split point at most hi (the regex engine tries
the longest first part first). -/
def e1BestK (l : List Char) : Nat → Option Nat
  | 0 => none
  | k + 1 => if e1TryK l (k + 1) then some (k + 1) else e1BestK l k

/-- A match of directTablePattern anchored at the head of the list: the
matched text together with the remainder the global scan continues from. -/
def e1MatchAt (l : List Char) : Option (List Char × List Char) :=
  let run := l.takeWhile isC1
  if run.isEmpty then none
  else
    match e1BestK l (run.length - 1) with
    | none => none
    | some k =>
      let rest2 := l.drop (k + 1)
      let part2 := rest2.takeWhile isC2
      some (l.take (k + 1) ++ part2, rest2.drop part2.length)

/-- The exec loop over directTablePattern: collect all non-overlapping
matches left to right (fuel-driven; every step consumes at least one
character). -/
def e1ScanAux : Nat → List Char → List (List Char)
  | 0, _ => []
  | _, [] => []
  | fuel + 1, l =>
    match e1MatchAt l with
    | some (m, rest) => m :: e1ScanAux fuel rest
    | none => e1ScanAux fuel l.tail

/-- All matches of directTablePattern in a cleaned sql_on string. -/
def e1Scan (l : List Char) : List (List Char) := e1ScanAux (l.length + 1) l

/-- Rule E1: checkJoinReferences of linter/rules.ts. -/
def checkJoinReferences (lookml : ParsedLookML) : List RuleViolation :=
  lookml.explores.foldl (fun violations ne =>
    let exploreName := ne.1
    let explore := ne.2
    explore.joins.foldl (fun violations nj =>
      let joinName := nj.1
      let join := nj.2
      if !strTruthy join.sql_on then violations
      else
        let ms := e1Scan (cleanSqlOn (join.sql_on.getD ""))
        violations ++ ms.filterMap (fun m =>
          if hasPre "safe.".data m then none
          else some ⟨"e1",
            "Join \"" ++ joinName ++ "\" in explore \"" ++ exploreName ++
              "\" uses direct table reference \"" ++ String.mk m ++
              "\" - use $\x7b\x7d substitution instead",
            "warning",
            ["explores", exploreName, "joins", joinName, "sql_on"]⟩)) violations)
    []

/-- A match of /\${([a-zA-Z0-9_]+)\.([a-zA-Z0-9_]+)}/ anchored at the head
of the list: the two captured groups and the remainder. -/
def crossRefAt (l : List Char) : Option ((List Char × List Char) × List Char) :=
  match l with
  | '$' :: '{' :: rest =>
    let w1 := rest.takeWhile isWordChar
    if w1.isEmpty then none else
    match rest.drop w1.length with
    | '.' :: r2 =>
      let w2 := r2.takeWhile isWordChar
      if w2.isEmpty then none else
      (match r2.drop w2.length with
       | '}' :: r4 => some ((w1, w2), r4)
       | _ => none)
    | _ => none
  | _ => none

/-- The exec loop over the cross-view reference pattern. -/
def crossRefScanAux : Nat → List Char → List (List Char × List Char)
  | 0, _ => []
  | _, [] => []
  | fuel + 1, l =>
    match crossRefAt l with
    | some (p, rest) => p :: crossRefScanAux fuel rest
    | none => crossRefScanAux fuel l.tail

/-- extractCrossViewReferences of linter/rules.ts. -/
def extractCrossViewReferences (text : String) (currentViewName : String) :
    List String :=
  (crossRefScanAux (text.data.length + 1) text.data).filterMap fun p =>
    if String.mk p.1 == currentViewName then none
    else if String.mk p.1 == "TABLE" then none
    else some (String.mk p.1 ++ "." ++ String.mk p.2)

/-- checkFieldsForCrossReferences of linter/rules.ts (returns the
violations it would push). -/
def checkFieldsForCrossReferences (fields : List (String × SimpleField))
    (viewName : String) (fieldType : String) : List RuleViolation :=
  fields.foldl (fun violations nf =>
    let fieldName := nf.1
    let field := nf.2
    let violations :=
      if strTruthy field.sql then
        violations ++ (extractCrossViewReferences (field.sql.getD "") viewName).map
          (fun ref => ⟨"f1",
            fieldType ++ " \"" ++ fieldName ++ "\" in view \"" ++ viewName ++
              "\" references another view via \"" ++ ref ++ "\"",
            "warning",
            ["views", viewName, fieldType ++ "s", fieldName, "sql"]⟩)
      else violations
    if strTruthy field.html then
      violations ++ (extractCrossViewReferences (field.html.getD "") viewName).map
        (fun ref => ⟨"f1",
          fieldType ++ " \"" ++ fieldName ++ "\" in view \"" ++ viewName ++
            "\" references another view in HTML via \"" ++ ref ++ "\"",
          "warning",
          ["views", viewName, fieldType ++ "s", fieldName, "html"]⟩)
    else violations) []

/-- Rule F1: checkCrossViewReferences of linter/rules.ts. -/
def checkCrossViewReferences (lookml : ParsedLookML) : List RuleViolation :=
  lookml.views.foldl (fun violations nv =>
    let viewName := nv.1
    let view := nv.2
    if !view.derived_table.isSome && !strTruthy view.sql_table_name then
      violations
    else
      violations
        ++ checkFieldsForCrossReferences view.dimensions viewName "dimension"
        ++ checkFieldsForCrossReferences view.dimension_groups viewName "dimension_group"
        ++ checkFieldsForCrossReferences view.measures viewName "measure"
        ++ checkFieldsForCrossReferences view.filters viewName "filter") []

/-- A rule check either returns a violation list or throws (Except models
the exception path that applyRules catches). -/
def RuleCheck : Type := ParsedLookML → Except String (List RuleViolation)

/-- The LookMLRule record of linter/types.ts. -/
structure LookMLRule where
  id : String
  description : String
  check : RuleCheck

/-- The ALL_RULES catalogue of linter/rules.ts (the built-in checks never
throw, so they are wrapped as always-ok). -/
def ALL_RULES : List (String × LookMLRule) :=
  [("k1", ⟨"k1",
      "Primary keys should be explicitly defined and follow naming conventions",
      fun l => .ok (checkPrimaryKeys l)⟩),
   ("e1", ⟨"e1",
      "Explore joins should use substitution operators instead of direct table references",
      fun l => .ok (checkJoinReferences l)⟩),
   ("f1", ⟨"f1",
      "Fields should not reference other views directly",
      fun l => .ok (checkCrossViewReferences l)⟩)]

/-- ALL_RULES[id] lookup. -/
def lookupRule (table : List (String × LookMLRule)) (id : String) :
    Option LookMLRule :=
  (table.find? (fun p => p.1 == id)).map (fun p => p.2)

/-- applyRules of linter/rules.ts, generalised over the rule table so that
the catch-and-continue behaviour is statable for a throwing rule: unknown
ids are dropped by the filter, each surviving rule runs inside try/catch,
and a throwing rule contributes no violations. -/
def applyRulesWith (table : List (String × LookMLRule)) (lookml : ParsedLookML)
    (enabledRuleIds : List String) : List RuleViolation :=
  let rulesToApply := enabledRuleIds.filterMap (lookupRule table)
  rulesToApply.foldl (fun violations rule =>
    match rule.check lookml with
    | .ok ruleViolations => violations ++ ruleViolations
    | .error _ => violations) []

/-- applyRules of linter/rules.ts over the fixed ALL_RULES catalogue. -/
def applyRules (lookml : ParsedLookML) (enabledRuleIds : List String) :
    List RuleViolation :=
  applyRulesWith ALL_RULES lookml enabledRuleIds

/-- The enabled-minus-disabled selection performed by getLookMLDiagnostics
(linter/diagnostics.ts) before calling applyRules. -/
def activeRules (enabledRules disabledRules : List String) : List String :=
  enabledRules.filter (fun rule => !disabledRules.contains rule)

/-- Lookahead (?=\nLIT-after-optional-whitespace): a newline, a maximal
whitespace run (forced, since every literal here starts with a
non-whitespace character), then the literal. -/
def nlWsLit (lit : List Char) (l : List Char) : Bool :=
  match l with
  | '\n' :: rest => hasPre lit (rest.dropWhile isWsChar)
  | _ => false

/-- Lookahead of the top-level declaration regexes:
(?=\n\s*view:|\n\s*explore:|\n\s*model:|\s*$). -/
def declLookahead (l : List Char) : Bool :=
  nlWsLit "view:".data l || nlWsLit "explore:".data l ||
  nlWsLit "model:".data l || l.all isWsChar

/-- Lookahead of the join regex: (?=\n\s*join:|\n\s*\}). -/
def joinLookahead (l : List Char) : Bool :=
  nlWsLit "join:".data l || nlWsLit "\x7d".data l

/-- Lookahead of the field regexes:
(?=\n\s*FT:|\n\s*dimension:|\n\s*dimension_group:|\n\s*measure:|\n\s*filter:|\n\s*\}). -/
def fieldLookahead (ft : List Char) (l : List Char) : Bool :=
  nlWsLit (ft ++ ":".data) l || nlWsLit "dimension:".data l ||
  nlWsLit "dimension_group:".data l || nlWsLit "measure:".data l ||
  nlWsLit "filter:".data l || nlWsLit "\x7d".data l

/-- The class [a-zA-Z_] of the property lookahead. -/
def isAlphaUnd (c : Char) : Bool :=
  ('a' ≤ c && c ≤ 'z') || ('A' ≤ c && c ≤ 'Z') || c == '_'

/-- Lookahead (?=\n\s*[a-zA-Z_]+:|$) used by the sql / sql_on / html
capture regexes;  $ is end of the (sub)string being matched. -/
def propOrEnd (l : List Char) : Bool :=
  (match l with
   | '\n' :: rest =>
     let r := rest.dropWhile isWsChar
     let w := r.takeWhile isAlphaUnd
     w.length ≥ 1 &&
       (match r.drop w.length with
        | ':' :: _ => true
        | _ => false)
   | _ => false) || l.isEmpty

/-- Lookahead (?=\n\s*;;\s*|$) of the derived-table sql capture. -/
def dtSqlLook (l : List Char) : Bool :=
  nlWsLit ";;".data l || l.isEmpty

/-- The lazy capture ([\s\S]*?)(?=LOOK): the shortest prefix after which
the lookahead holds, together with the remainder; none when the lookahead
never holds. -/
def lazyBody (look : List Char → Bool) : List Char → Option (List Char × List Char)
  | [] => if look [] then some ([], []) else none
  | c :: cs =>
    if look (c :: cs) then some ([], c :: cs)
    else
      match lazyBody look cs with
      | some (b, rest) => some (c :: b, rest)
      | none => none

/-- A match of LIT\s+([a-zA-Z0-9_]+)\s*\{([\s\S]*?)(?=LOOK) anchored at the
head: the captured name and body plus the remainder the global scan
continues from.  All runs are forced maximal by the characters that must
follow them. -/
def declMatchAt (lit : List Char) (look : List Char → Bool) (l : List Char) :
    Option ((List Char × List Char) × List Char) :=
  if hasPre lit l then
    let r0 := l.drop lit.length
    let ws := r0.takeWhile isWsChar
    if ws.isEmpty then none else
    let r1 := r0.drop ws.length
    let name := r1.takeWhile isWordChar
    if name.isEmpty then none else
    match (r1.drop name.length).dropWhile isWsChar with
    | '{' :: r3 =>
      match lazyBody look r3 with
      | some (b, rest) => some ((name, b), rest)
      | none => none
    | _ => none
  else none

/-- The global exec loop over a declaration-shaped regex. -/
def declScanAux (lit : List Char) (look : List Char → Bool) :
    Nat → List Char → List (List Char × List Char)
  | 0, _ => []
  | _, [] => []
  | fuel + 1, l =>
    match declMatchAt lit look l with
    | some (nb, rest) => nb :: declScanAux lit look fuel rest
    | none => declScanAux lit look fuel l.tail

/-- Leftmost match of a head-anchored matcher (String.prototype.match with
a non-global regex). -/
def findFirst {α : Type} (matchAt : List Char → Option α) :
    Nat → List Char → Option α
  | 0, _ => none
  | _, [] => none
  | fuel + 1, l =>
    match matchAt l with
    | some a => some a
    | none => findFirst matchAt fuel l.tail

/-- A match of LIT\s*([^\n]+) anchored at the head: the greedy whitespace
run backtracks from its maximum until the capture can start with a
non-newline character. -/
def captureLineAt (lit : List Char) (l : List Char) : Option (List Char) :=
  if hasPre lit l then
    let r0 := l.drop lit.length
    captureLineTry r0 (r0.takeWhile isWsChar).length
  else none
where
  captureLineTry (r0 : List Char) : Nat → Option (List Char)
    | 0 =>
      (match r0 with
       | [] => none
       | c :: _ =>
         if c == '\n' then none else some (r0.takeWhile (fun x => x != '\n')))
    | t + 1 =>
      (match r0.drop (t + 1) with
       | [] => captureLineTry r0 t
       | c :: _ =>
         if c == '\n' then captureLineTry r0 t
         else some ((r0.drop (t + 1)).takeWhile (fun x => x != '\n')))

/-- A match of LIT\s*"([^"]+)" anchored at the head, returning the body. -/
def captureQuotedAt (lit : List Char) (l : List Char) : Option (List Char) :=
  if hasPre lit l then
    match (l.drop lit.length).dropWhile isWsChar with
    | '"' :: r2 =>
      let body := r2.takeWhile (fun c => c != '"')
      if body.length ≥ 1 && hasPre "\"".data (r2.drop body.length) then some body
      else none
    | _ => none
  else none

/-- A match of LIT\s*([\s\S]*?)(?=LOOK) anchored at the head: maximal
whitespace run (any shorter split is re-absorbed by the lazy body and
yields the same overall match when the lookahead accepts end of input),
then the shortest body accepted by the lookahead. -/
def captureLazyAt (lit : List Char) (look : List Char → Bool) (l : List Char) :
    Option (List Char) :=
  if hasPre lit l then
    (lazyBody look ((l.drop lit.length).dropWhile isWsChar)).map (fun p => p.1)
  else none

/-- A match of derived_table:\s*\{([\s\S]*?)(?=\n\s*\}) anchored at the
head. -/
def derivedTableAt (l : List Char) : Option (List Char) :=
  if hasPre "derived_table:".data l then
    match (l.drop 14).dropWhile isWsChar with
    | '{' :: r2 => (lazyBody (nlWsLit "\x7d".data) r2).map (fun p => p.1)
    | _ => none
  else none

/-- A case-insensitive match of LIT\s*(alt1|alt2|…) anchored at the head,
returning the first alternative that matches as a prefix (the alternatives
are given lower-case, which is also what the source compares against). -/
def ciCaptureAlt (lit : List Char) (alts : List (List Char)) (l : List Char) :
    Option (List Char) :=
  if ciPre lit l then
    let r1 := (l.drop lit.length).dropWhile isWsChar
    alts.findSome? (fun a => if ciPre a r1 then some a else none)
  else none

/-- A match of include:\s*"([^"]+)" returning body and remainder (for the
global scan of extractModels). -/
def includeMatchAt (l : List Char) : Option (List Char × List Char) :=
  if hasPre "include:".data l then
    match (l.drop 8).dropWhile isWsChar with
    | '"' :: r2 =>
      let body := r2.takeWhile (fun c => c != '"')
      if body.length ≥ 1 && hasPre "\"".data (r2.drop body.length) then
        some (body, r2.drop (body.length + 1))
      else none
    | _ => none
  else none

/-- The global exec loop of /include:\s*"([^"]+)"/g. -/
def includeScanAux : Nat → List Char → List (List Char)
  | 0, _ => []
  | _, [] => []
  | fuel + 1, l =>
    match includeMatchAt l with
    | some (b, rest) => b :: includeScanAux fuel rest
    | none => includeScanAux fuel l.tail

/-- JS object property assignment m[k] = v: replaces the value in place
when the key exists, appends otherwise (insertion order is preserved). -/
def assocSet {β : Type} (m : List (String × β)) (k : String) (v : β) :
    List (String × β) :=
  if m.any (fun p => p.1 == k) then
    m.map (fun p => if p.1 == k then (k, v) else p)
  else m ++ [(k, v)]

/-- Build a SimpleField from a field match (extractFields body). -/
def parseSimpleField (name content : List Char) : SimpleField :=
  let fuel := content.length + 1
  { name := String.mk name,
    type := (findFirst (captureLineAt "type:".data) fuel content).map
      (fun c => String.mk (trimL c)),
    sql := (findFirst (captureLazyAt "sql:".data propOrEnd) fuel content).map
      (fun c => String.mk (trimL c)),
    primary_key := (findFirst
        (ciCaptureAlt "primary_key:".data
          ["yes".data, "true".data, "no".data, "false".data]) fuel content).map
      (fun v => v == "yes".data || v == "true".data),
    label := (findFirst (captureQuotedAt "label:".data) fuel content).map String.mk,
    description := (findFirst (captureQuotedAt "description:".data) fuel
      content).map String.mk,
    html := (findFirst (captureLazyAt "html:".data propOrEnd) fuel content).map
      (fun c => String.mk (trimL c)) }

/-- extractFields of linter/parser.ts. -/
def extractFields (content : List Char) (fieldType : List Char) :
    List (String × SimpleField) :=
  (declScanAux (fieldType ++ ":".data) (fieldLookahead fieldType)
      (content.length + 1) content).foldl
    (fun m p => assocSet m (String.mk p.1) (parseSimpleField p.1 p.2)) []

/-- Build a SimpleView from a view match (extractViews body). -/
def parseSimpleView (name content : List Char) : SimpleView :=
  let fuel := content.length + 1
  { name := String.mk name,
    sql_table_name := (findFirst (captureLineAt "sql_table_name:".data) fuel
      content).map (fun c => String.mk (trimL c)),
    derived_table := (findFirst derivedTableAt fuel content).map (fun dbody =>
      { sql := some ((((findFirst (captureLazyAt "sql:".data dtSqlLook)
          (dbody.length + 1) dbody).map (fun c => String.mk (trimL c))).getD
            "")) }),
    dimensions := extractFields content "dimension".data,
    dimension_groups := extractFields content "dimension_group".data,
    measures := extractFields content "measure".data,
    filters := extractFields content "filter".data }

/-- extractViews of linter/parser.ts. -/
def extractViews (content : List Char) : List (String × SimpleView) :=
  (declScanAux "view:".data declLookahead (content.length + 1) content).foldl
    (fun m p => assocSet m (String.mk p.1) (parseSimpleView p.1 p.2)) []

/-- Build a SimpleJoin from a join match (extractJoins body). -/
def parseSimpleJoin (name content : List Char) : SimpleJoin :=
  let fuel := content.length + 1
  { name := String.mk name,
    sql_on := (findFirst (captureLazyAt "sql_on:".data propOrEnd) fuel
      content).map (fun c => String.mk (trimL c)),
    relationship := (findFirst (captureLineAt "relationship:".data) fuel
      content).map (fun c => String.mk (trimL c)) }

/-- extractJoins of linter/parser.ts. -/
def extractJoins (content : List Char) : List (String × SimpleJoin) :=
  (declScanAux "join:".data joinLookahead (content.length + 1) content).foldl
    (fun m p => assocSet m (String.mk p.1) (parseSimpleJoin p.1 p.2)) []

/-- Build a SimpleExplore from an explore match (extractExplores body). -/
def parseSimpleExplore (name content : List Char) : SimpleExplore :=
  let fuel := content.length + 1
  { name := String.mk name,
    view_name := (findFirst (captureLineAt "view_name:".data) fuel content).map
      (fun c => String.mk (trimL c)),
    joins := extractJoins content }

/-- extractExplores of linter/parser.ts. -/
def extractExplores (content : List Char) : List (String × SimpleExplore) :=
  (declScanAux "explore:".data declLookahead (content.length + 1) content).foldl
    (fun m p => assocSet m (String.mk p.1) (parseSimpleExplore p.1 p.2)) []

/-- Build a SimpleModel from a model match (extractModels body). -/
def parseSimpleModel (name content : List Char) : SimpleModel :=
  let fuel := content.length + 1
  let includes := includeScanAux fuel content
  { name := String.mk name,
    connection := (findFirst (captureLineAt "connection:".data) fuel
      content).map (fun c => String.mk (trimL c)),
    includes := if includes.isEmpty then none else some (includes.map String.mk) }

/-- extractModels of linter/parser.ts. -/
def extractModels (content : List Char) : List (String × SimpleModel) :=
  (declScanAux "model:".data declLookahead (content.length + 1) content).foldl
    (fun m p => assocSet m (String.mk p.1) (parseSimpleModel p.1 p.2)) []

/-- parseLookMLSync of linter/parser.ts: initialise the three collections
empty and fill them with the three extractors (they never throw here, so
the try/catch of the source is the identity). -/
def parseLookMLSync (lookmlContent : String) : ParsedLookML :=
  { views := extractViews lookmlContent.data,
    explores := extractExplores lookmlContent.data,
    models := extractModels lookmlContent.data }

/-! ### Concrete documents and structures used by the theorems -/

/-- The formatter configuration used in the concrete runs: two-space
indentation with grouping and sorting enabled. -/
def fmtCfg : FormatConfig := ⟨2, true, true, true⟩

/-- A view whose fields are declared in the order [measure total_sales,
dimension zebra, dimension apple]. -/
def demoText : String :=
  "view: my_view \x7b\n  sql_table_name: my_table ;;\n\n  measure: total_sales \x7b\n    type: sum\n  \x7d\n\n  dimension: zebra \x7b\n    type: string\n  \x7d\n\n  dimension: apple \x7b\n    type: number\n  \x7d\n\x7d"

/-- The formatter output for demoText: dimensions sorted before measures,
each wrapped in marker comments. -/
def demoPass1 : String :=
  "view: my_view \x7b\n  sql_table_name: my_table ;;\n\n  # ----- Dimensions -----\n\n  dimension: apple \x7b\n    type: number\n  \x7d\n\n  dimension: zebra \x7b\n    type: string\n  \x7d\n  # ----- End of Dimensions -----\n  # ----- Measures -----\n\n  measure: total_sales \x7b\n    type: sum\n  \x7d\n  # ----- End of Measures -----\n\x7d"

/-- The formatter output for demoPass1: the two marker comments standing
between the dimension section and the measure got re-attached as leading
comments of total_sales and are emitted a second time. -/
def demoPass2 : String :=
  "view: my_view \x7b\n  sql_table_name: my_table ;;\n\n  # ----- Dimensions -----\n\n  dimension: apple \x7b\n    type: number\n  \x7d\n\n  dimension: zebra \x7b\n    type: string\n  \x7d\n  # ----- End of Dimensions -----\n  # ----- Measures -----\n\n  # ----- End of Dimensions -----\n  # ----- Measures -----\n  measure: total_sales \x7b\n    type: sum\n  \x7d\n  # ----- End of Measures -----\n\x7d"

/-- A view with a backing table and one primary-key dimension of the given
name. -/
def pkDemo (dn : String) : ParsedLookML :=
  { views := [("orders",
      { name := "orders"
        sql_table_name := some "public.orders"
        dimensions := [(dn, { name := dn, primary_key := some true })] })] }

/-- An explore with a single join carrying the given sql_on. -/
def e1Demo (s : String) : ParsedLookML :=
  { explores := [("e",
      { name := "e"
        joins := [("j", { name := "j", sql_on := some s })] })] }

/-- A view named orders with a backing table and one dimension whose sql is
the given string. -/
def f1Demo (sq : String) : ParsedLookML :=
  { views := [("orders",
      { name := "orders"
        sql_table_name := some "t"
        dimensions := [("d", { name := "d", sql := some sq })] })] }

/-- A view named orders with a backing table and one dimension whose html is
the given string. -/
def f1DemoHtml (h : String) : ParsedLookML :=
  { views := [("orders",
      { name := "orders"
        sql_table_name := some "t"
        dimensions := [("d", { name := "d", html := some h })] })] }

/-- An input with an unterminated dimension block and an unterminated view
block. -/
def unterminatedDemo : String :=
  "view: broken \x7b\n  dimension: x \x7b\n    type: number\n"

/-! ### Helper lemmas shared by the claim theorems -/

/-- Folding an append-accumulating step starting from init prepends init. -/
theorem foldl_append_shift {α β : Type} (g : α → List β) (l : List α)
    (init : List β) :
    l.foldl (fun acc x => acc ++ g x) init
      = init ++ l.foldl (fun acc x => acc ++ g x) [] := by
  induction l generalizing init with
  | nil => simp
  | cons x xs ih =>
    simp only [List.foldl_cons, List.nil_append]
    rw [ih (init ++ g x), ih (g x), List.append_assoc]

/-- The length of a filterMap whose function is an if-then-some-else-none. -/
theorem length_filterMap_ite {α β : Type} (p : α → Bool) (f : α → β)
    (l : List α) :
    (l.filterMap (fun a => if p a then some (f a) else none)).length
      = (l.filter p).length := by
  induction l with
  | nil => rfl
  | cons x xs ih => cases hx : p x <;> simp [List.filterMap_cons, hx, ih]

/-- The violations rule K1 produces for a single view entry (the loop body
of checkPrimaryKeys). -/
def k1ViewViolations (nv : String × SimpleView) : List RuleViolation :=
  if !nv.2.derived_table.isSome && !strTruthy nv.2.sql_table_name then []
  else
    let pkDimensions := nv.2.dimensions.filter (fun d => d.2.primary_key == some true)
    if pkDimensions.isEmpty then
      [⟨"k1", "View \"" ++ nv.1 ++ "\" is missing a primary key dimension",
        "warning", ["views", nv.1]⟩]
    else
      pkDimensions.filterMap (fun d =>
        if !pkNameMatches d.1 then
          some ⟨"k1",
            "Primary key dimension \"" ++ d.1 ++ "\" in view \"" ++ nv.1 ++
              "\" should follow naming convention (pk)",
            "warning", ["views", nv.1, "dimensions", d.1]⟩
        else none)

/-- checkPrimaryKeys is the fold of its per-view violations. -/
theorem checkPrimaryKeys_eq_foldl (l : ParsedLookML) :
    checkPrimaryKeys l
      = l.views.foldl (fun acc nv => acc ++ k1ViewViolations nv) [] := by
  unfold checkPrimaryKeys
  congr 1
  funext acc nv
  simp only [k1ViewViolations]
  split_ifs <;> simp_all

/-- K1 violations aggregate per view. -/
theorem checkPrimaryKeys_append (vs1 vs2 : List (String × SimpleView))
    (es : List (String × SimpleExplore)) (ms : List (String × SimpleModel)) :
    checkPrimaryKeys ⟨vs1 ++ vs2, es, ms⟩
      = checkPrimaryKeys ⟨vs1, es, ms⟩ ++ checkPrimaryKeys ⟨vs2, es, ms⟩ := by
  simp only [checkPrimaryKeys_eq_foldl, List.foldl_append]
  rw [foldl_append_shift]

/-- K1 on a one-view structure is its per-view violation list. -/
theorem checkPrimaryKeys_singleton (n : String) (v : SimpleView)
    (es : List (String × SimpleExplore)) (ms : List (String × SimpleModel)) :
    checkPrimaryKeys ⟨[(n, v)], es, ms⟩ = k1ViewViolations (n, v) := by
  simp [checkPrimaryKeys_eq_foldl]

/-- C5: rule K1 per view.  Violations aggregate view by view; a view with
neither a backing table nor a derived table yields none; a view with a
backing table or derived table and no primary-key dimension yields exactly
the one missing-primary-key violation; otherwise it yields exactly one
naming violation per primary-key dimension whose name fails pk-naming.  In
particular a view with sql_table_name and a single primary-key dimension
user_id yields exactly the naming violation, and the same view with the
dimension renamed pk yields none. -/
theorem c5_k1_primary_key_rule
    (es : List (String × SimpleExplore)) (ms : List (String × SimpleModel))
    (vs1 vs2 : List (String × SimpleView)) (n : String) (v : SimpleView) :
    checkPrimaryKeys ⟨vs1 ++ vs2, es, ms⟩
        = checkPrimaryKeys ⟨vs1, es, ms⟩ ++ checkPrimaryKeys ⟨vs2, es, ms⟩
    ∧ ((v.derived_table.isSome || strTruthy v.sql_table_name) = false →
        checkPrimaryKeys ⟨[(n, v)], es, ms⟩ = [])
    ∧ ((v.derived_table.isSome || strTruthy v.sql_table_name) = true →
        v.dimensions.filter (fun d => d.2.primary_key == some true) = [] →
        checkPrimaryKeys ⟨[(n, v)], es, ms⟩
          = [⟨"k1", "View \"" ++ n ++ "\" is missing a primary key dimension",
              "warning", ["views", n]⟩])
    ∧ ((v.derived_table.isSome || strTruthy v.sql_table_name) = true →
        v.dimensions.filter (fun d => d.2.primary_key == some true) ≠ [] →
        (checkPrimaryKeys ⟨[(n, v)], es, ms⟩).length
          = ((v.dimensions.filter (fun d => d.2.primary_key == some true)).filter
              (fun d => !pkNameMatches d.1)).length)
    ∧ checkPrimaryKeys (pkDemo "user_id")
        = [⟨"k1",
            "Primary key dimension \"user_id\" in view \"orders\" should follow naming convention (pk)",
            "warning", ["views", "orders", "dimensions", "user_id"]⟩]
    ∧ checkPrimaryKeys (pkDemo "pk") = [] := by
  refine ⟨checkPrimaryKeys_append vs1 vs2 es ms, ?_, ?_, ?_, by decide, by decide⟩
  · intro h
    rw [checkPrimaryKeys_singleton]
    rw [Bool.or_eq_false_iff] at h
    have hd : v.derived_table = none := by
      cases hval : v.derived_table
      · rfl
      · rw [hval] at h
        simp at h
    simp [k1ViewViolations, hd, h.2]
  · intro h hpk
    rw [checkPrimaryKeys_singleton]
    have hskip : (!v.derived_table.isSome && !strTruthy v.sql_table_name) = false := by
      rw [Bool.or_eq_true] at h
      rcases h with h1 | h1 <;> simp [h1]
    simp [k1ViewViolations, hskip, hpk]
    intro hd
    rw [hd] at hskip
    simpa using hskip
  · intro h hpk
    rw [checkPrimaryKeys_singleton]
    have hskip : (!v.derived_table.isSome && !strTruthy v.sql_table_name) = false := by
      rw [Bool.or_eq_true] at h
      rcases h with h1 | h1 <;> simp [h1]
    have hemp : (v.dimensions.filter (fun d => d.2.primary_key == some true)).isEmpty = false := by
      cases hE : (v.dimensions.filter (fun d => d.2.primary_key == some true)).isEmpty
      · rfl
      · exact absurd (List.isEmpty_iff.mp hE) hpk
    simp only [k1ViewViolations, hskip, Bool.false_eq_true, if_false, hemp]
    exact length_filterMap_ite (fun (d : String × SimpleField) => !pkNameMatches d.1) _ _

/-- Witness for C5: the theorem applied at concrete views, discharging each
hypothesis. -/
theorem c5_k1_primary_key_rule_witness :
    checkPrimaryKeys ⟨[("w", { name := "w" })], [], []⟩ = []
    ∧ checkPrimaryKeys ⟨[("w", { name := "w", sql_table_name := some "t" })], [], []⟩
        = [⟨"k1", "View \"w\" is missing a primary key dimension", "warning",
            ["views", "w"]⟩]
    ∧ (checkPrimaryKeys (pkDemo "user_id")).length = 1 :=
  ⟨(c5_k1_primary_key_rule [] [] [] [] "w" { name := "w" }).2.1 (by decide),
   (c5_k1_primary_key_rule [] [] [] [] "w"
      { name := "w", sql_table_name := some "t" }).2.2.1 (by decide) (by decide),
   by
     have h := (c5_k1_primary_key_rule [] [] [] [] "orders"
        { name := "orders", sql_table_name := some "public.orders",
          dimensions := [("user_id", { name := "user_id", primary_key := some true })] }).2.2.2.1
        (by decide) (by decide)
     have : checkPrimaryKeys (pkDemo "user_id")
         = checkPrimaryKeys ⟨[("orders",
            { name := "orders", sql_table_name := some "public.orders",
              dimensions := [("user_id", { name := "user_id", primary_key := some true })] })], [], []⟩ := by
       rfl
     rw [this, h]
     decide⟩

/-- The length of a filterMap whose function is an if-then-none-else-some. -/
theorem length_filterMap_ite_none {α β : Type} (p : α → Bool) (f : α → β)
    (l : List α) :
    (l.filterMap (fun a => if p a then none else some (f a))).length
      = (l.filter (fun a => !p a)).length := by
  induction l with
  | nil => rfl
  | cons x xs ih => cases hx : p x <;> simp [List.filterMap_cons, hx, ih]

/-- The violations rule E1 produces for a single join of a given explore
(the inner loop body of checkJoinReferences). -/
def e1JoinViolations (exploreName : String) (nj : String × SimpleJoin) :
    List RuleViolation :=
  if !strTruthy nj.2.sql_on then []
  else
    (e1Scan (cleanSqlOn (nj.2.sql_on.getD ""))).filterMap (fun m =>
      if hasPre "safe.".data m then none
      else some ⟨"e1",
        "Join \"" ++ nj.1 ++ "\" in explore \"" ++ exploreName ++
          "\" uses direct table reference \"" ++ String.mk m ++
          "\" - use $\x7b\x7d substitution instead",
        "warning", ["explores", exploreName, "joins", nj.1, "sql_on"]⟩)

/-- The violations rule E1 produces for a single explore entry. -/
def e1ExploreViolations (ne : String × SimpleExplore) : List RuleViolation :=
  ne.2.joins.foldl (fun acc nj => acc ++ e1JoinViolations ne.1 nj) []

/-- checkJoinReferences is the fold of its per-explore violations. -/
theorem checkJoinReferences_eq_foldl (l : ParsedLookML) :
    checkJoinReferences l
      = l.explores.foldl (fun acc ne => acc ++ e1ExploreViolations ne) [] := by
  unfold checkJoinReferences
  congr 1
  funext acc ne
  dsimp only
  have hbody : (fun (violations : List RuleViolation) (nj : String × SimpleJoin) =>
      if !strTruthy nj.2.sql_on then violations
      else
        violations ++ (e1Scan (cleanSqlOn (nj.2.sql_on.getD ""))).filterMap (fun m =>
          if hasPre "safe.".data m then none
          else some ⟨"e1",
            "Join \"" ++ nj.1 ++ "\" in explore \"" ++ ne.1 ++
              "\" uses direct table reference \"" ++ String.mk m ++
              "\" - use $\x7b\x7d substitution instead",
            "warning", ["explores", ne.1, "joins", nj.1, "sql_on"]⟩))
      = fun acc nj => acc ++ e1JoinViolations ne.1 nj := by
    funext a nj
    simp only [e1JoinViolations]
    split_ifs <;> simp
  rw [hbody, e1ExploreViolations, foldl_append_shift]

/-- E1 violations aggregate explore by explore. -/
theorem checkJoinReferences_append (es1 es2 : List (String × SimpleExplore))
    (vs : List (String × SimpleView)) (ms : List (String × SimpleModel)) :
    checkJoinReferences ⟨vs, es1 ++ es2, ms⟩
      = checkJoinReferences ⟨vs, es1, ms⟩ ++ checkJoinReferences ⟨vs, es2, ms⟩ := by
  simp only [checkJoinReferences_eq_foldl, List.foldl_append]
  rw [foldl_append_shift]

/-- E1 on a one-explore structure is its per-explore violation list. -/
theorem checkJoinReferences_singleton (n : String) (e : SimpleExplore)
    (vs : List (String × SimpleView)) (ms : List (String × SimpleModel)) :
    checkJoinReferences ⟨vs, [(n, e)], ms⟩ = e1ExploreViolations (n, e) := by
  simp [checkJoinReferences_eq_foldl]

/-- C6: rule E1.  Violations aggregate explore by explore and join by join;
a join with a non-empty sql_on contributes exactly one violation per match
of the direct-reference pattern on the tag-stripped sql_on that is not
prefixed by safe. — so orders.user_id = users.id yields exactly two
violations and a sql_on whose only bare reference is safe.-prefixed yields
none. -/
theorem c6_e1_join_reference_rule
    (vs : List (String × SimpleView)) (ms : List (String × SimpleModel))
    (es1 es2 : List (String × SimpleExplore))
    (en en2 : String) (vn : Option String)
    (js1 js2 : List (String × SimpleJoin))
    (jn : String) (j : SimpleJoin) (s : String) :
    checkJoinReferences ⟨vs, es1 ++ es2, ms⟩
        = checkJoinReferences ⟨vs, es1, ms⟩ ++ checkJoinReferences ⟨vs, es2, ms⟩
    ∧ checkJoinReferences ⟨vs, [(en, ⟨en2, vn, js1 ++ js2⟩)], ms⟩
        = checkJoinReferences ⟨vs, [(en, ⟨en2, vn, js1⟩)], ms⟩
          ++ checkJoinReferences ⟨vs, [(en, ⟨en2, vn, js2⟩)], ms⟩
    ∧ (j.sql_on = some s → s.isEmpty = false →
        (checkJoinReferences ⟨vs, [(en, ⟨en2, vn, [(jn, j)]⟩)], ms⟩).length
          = ((e1Scan (cleanSqlOn s)).filter
              (fun m => !hasPre "safe.".data m)).length)
    ∧ checkJoinReferences (e1Demo "orders.user_id = users.id")
        = [⟨"e1",
            "Join \"j\" in explore \"e\" uses direct table reference \"orders.user_id \" - use $\x7b\x7d substitution instead",
            "warning", ["explores", "e", "joins", "j", "sql_on"]⟩,
           ⟨"e1",
            "Join \"j\" in explore \"e\" uses direct table reference \"users.id\" - use $\x7b\x7d substitution instead",
            "warning", ["explores", "e", "joins", "j", "sql_on"]⟩]
    ∧ checkJoinReferences (e1Demo "$\x7borders.user_id\x7d = safe.users.id") = [] := by
  refine ⟨checkJoinReferences_append es1 es2 vs ms, ?_, ?_, by decide, by decide⟩
  · rw [checkJoinReferences_singleton, checkJoinReferences_singleton,
      checkJoinReferences_singleton]
    simp only [e1ExploreViolations, List.foldl_append]
    rw [foldl_append_shift]
  · intro hs hns
    rw [checkJoinReferences_singleton]
    simp only [e1ExploreViolations, List.foldl_cons, List.foldl_nil, List.nil_append]
    have htr : (!strTruthy (some s)) = false := by simp [strTruthy, hns]
    simp only [e1JoinViolations, hs, Option.getD_some, htr, Bool.false_eq_true, if_false]
    exact length_filterMap_ite_none (fun m => hasPre "safe.".data m) _ _

/-- Witness for C6: the theorem applied at a concrete join, discharging each
hypothesis. -/
theorem c6_e1_join_reference_rule_witness :
    (checkJoinReferences (e1Demo "orders.user_id = users.id")).length = 2 := by
  have h := (c6_e1_join_reference_rule [] [] [] [] "e" "e" none [] [] "j"
      { name := "j", sql_on := some "orders.user_id = users.id" }
      "orders.user_id = users.id").2.2.1 rfl (by decide)
  have heq : checkJoinReferences (e1Demo "orders.user_id = users.id")
      = checkJoinReferences ⟨[], [("e", ⟨"e", none,
          [("j", { name := "j", sql_on := some "orders.user_id = users.id" })]⟩)], []⟩ := by
    rfl
  rw [heq, h]
  decide

/-- The violations rule F1 produces for a single field (the loop body of
checkFieldsForCrossReferences). -/
def f1FieldViolations (viewName fieldType : String) (nf : String × SimpleField) :
    List RuleViolation :=
  (if strTruthy nf.2.sql then
    (extractCrossViewReferences (nf.2.sql.getD "") viewName).map
      (fun ref => ⟨"f1",
        fieldType ++ " \"" ++ nf.1 ++ "\" in view \"" ++ viewName ++
          "\" references another view via \"" ++ ref ++ "\"",
        "warning", ["views", viewName, fieldType ++ "s", nf.1, "sql"]⟩)
  else [])
  ++ (if strTruthy nf.2.html then
    (extractCrossViewReferences (nf.2.html.getD "") viewName).map
      (fun ref => ⟨"f1",
        fieldType ++ " \"" ++ nf.1 ++ "\" in view \"" ++ viewName ++
          "\" references another view in HTML via \"" ++ ref ++ "\"",
        "warning", ["views", viewName, fieldType ++ "s", nf.1, "html"]⟩)
  else [])

/-- checkFieldsForCrossReferences is the fold of its per-field violations. -/
theorem checkFieldsForCrossReferences_eq_foldl
    (fields : List (String × SimpleField)) (vn ft : String) :
    checkFieldsForCrossReferences fields vn ft
      = fields.foldl (fun acc nf => acc ++ f1FieldViolations vn ft nf) [] := by
  unfold checkFieldsForCrossReferences
  congr 1
  funext acc nf
  dsimp only
  simp only [f1FieldViolations]
  split_ifs <;> simp

/-- F1 field violations aggregate field by field. -/
theorem checkFieldsForCrossReferences_append
    (fs1 fs2 : List (String × SimpleField)) (vn ft : String) :
    checkFieldsForCrossReferences (fs1 ++ fs2) vn ft
      = checkFieldsForCrossReferences fs1 vn ft
        ++ checkFieldsForCrossReferences fs2 vn ft := by
  simp only [checkFieldsForCrossReferences_eq_foldl, List.foldl_append]
  rw [foldl_append_shift]

/-- The violations rule F1 produces for a single view entry. -/
def f1ViewViolations (nv : String × SimpleView) : List RuleViolation :=
  if !nv.2.derived_table.isSome && !strTruthy nv.2.sql_table_name then []
  else
    checkFieldsForCrossReferences nv.2.dimensions nv.1 "dimension"
      ++ checkFieldsForCrossReferences nv.2.dimension_groups nv.1 "dimension_group"
      ++ checkFieldsForCrossReferences nv.2.measures nv.1 "measure"
      ++ checkFieldsForCrossReferences nv.2.filters nv.1 "filter"

/-- checkCrossViewReferences is the fold of its per-view violations. -/
theorem checkCrossViewReferences_eq_foldl (l : ParsedLookML) :
    checkCrossViewReferences l
      = l.views.foldl (fun acc nv => acc ++ f1ViewViolations nv) [] := by
  unfold checkCrossViewReferences
  congr 1
  funext acc nv
  dsimp only
  simp only [f1ViewViolations]
  split_ifs <;> simp

/-- F1 violations aggregate view by view. -/
theorem checkCrossViewReferences_append (vs1 vs2 : List (String × SimpleView))
    (es : List (String × SimpleExplore)) (ms : List (String × SimpleModel)) :
    checkCrossViewReferences ⟨vs1 ++ vs2, es, ms⟩
      = checkCrossViewReferences ⟨vs1, es, ms⟩
        ++ checkCrossViewReferences ⟨vs2, es, ms⟩ := by
  simp only [checkCrossViewReferences_eq_foldl, List.foldl_append]
  rw [foldl_append_shift]

/-- F1 on a one-view structure is its per-view violation list. -/
theorem checkCrossViewReferences_singleton (n : String) (v : SimpleView)
    (es : List (String × SimpleExplore)) (ms : List (String × SimpleModel)) :
    checkCrossViewReferences ⟨[(n, v)], es, ms⟩ = f1ViewViolations (n, v) := by
  simp [checkCrossViewReferences_eq_foldl]

/-- C7: rule F1.  Views without a backing table or derived table are
skipped; a view with one is scanned per field collection in the fixed
order dimensions, dimension_groups, measures, filters; each field
contributes one violation per cross-view reference found in its sql and in
its html, with distinct sql and html messages; a reference to the view
itself or to TABLE is not a cross-view reference.  In particular a
dimension of view orders with sql referencing users.name yields exactly the
one sql-message violation, the same dimension with a TABLE reference yields
none, and an html reference yields the distinct HTML message. -/
theorem c7_f1_cross_view_rule
    (es : List (String × SimpleExplore)) (ms : List (String × SimpleModel))
    (vs1 vs2 : List (String × SimpleView)) (n vn ft : String) (v : SimpleView)
    (nf : String × SimpleField) :
    checkCrossViewReferences ⟨vs1 ++ vs2, es, ms⟩
        = checkCrossViewReferences ⟨vs1, es, ms⟩
          ++ checkCrossViewReferences ⟨vs2, es, ms⟩
    ∧ ((v.derived_table.isSome || strTruthy v.sql_table_name) = false →
        checkCrossViewReferences ⟨[(n, v)], es, ms⟩ = [])
    ∧ ((v.derived_table.isSome || strTruthy v.sql_table_name) = true →
        checkCrossViewReferences ⟨[(n, v)], es, ms⟩
          = checkFieldsForCrossReferences v.dimensions n "dimension"
            ++ checkFieldsForCrossReferences v.dimension_groups n "dimension_group"
            ++ checkFieldsForCrossReferences v.measures n "measure"
            ++ checkFieldsForCrossReferences v.filters n "filter")
    ∧ (checkFieldsForCrossReferences [nf] vn ft).length
        = (if strTruthy nf.2.sql then
            (extractCrossViewReferences (nf.2.sql.getD "") vn).length else 0)
          + (if strTruthy nf.2.html then
              (extractCrossViewReferences (nf.2.html.getD "") vn).length else 0)
    ∧ extractCrossViewReferences "$\x7busers.name\x7d" "orders" = ["users.name"]
    ∧ extractCrossViewReferences "$\x7busers.name\x7d" "users" = []
    ∧ extractCrossViewReferences "$\x7bTABLE\x7d.id" "orders" = []
    ∧ checkCrossViewReferences (f1Demo "$\x7busers.name\x7d")
        = [⟨"f1",
            "dimension \"d\" in view \"orders\" references another view via \"users.name\"",
            "warning", ["views", "orders", "dimensions", "d", "sql"]⟩]
    ∧ checkCrossViewReferences (f1Demo "$\x7bTABLE\x7d.id") = []
    ∧ checkCrossViewReferences (f1DemoHtml "$\x7busers.name\x7d")
        = [⟨"f1",
            "dimension \"d\" in view \"orders\" references another view in HTML via \"users.name\"",
            "warning", ["views", "orders", "dimensions", "d", "html"]⟩] := by
  refine ⟨checkCrossViewReferences_append vs1 vs2 es ms, ?_, ?_, ?_,
    by decide, by decide, by decide, by decide, by decide, by decide⟩
  · intro h
    rw [checkCrossViewReferences_singleton]
    rw [Bool.or_eq_false_iff] at h
    have hd : v.derived_table = none := by
      cases hval : v.derived_table
      · rfl
      · rw [hval] at h
        simp at h
    simp [f1ViewViolations, hd, h.2]
  · intro h
    rw [checkCrossViewReferences_singleton]
    have hskip : (!v.derived_table.isSome && !strTruthy v.sql_table_name) = false := by
      rw [Bool.or_eq_true] at h
      rcases h with h1 | h1 <;> simp [h1]
    simp [f1ViewViolations, hskip]
    intro hd hs
    rw [hd] at hskip
    simp [hs] at hskip
  · rw [checkFieldsForCrossReferences_eq_foldl]
    simp only [List.foldl_cons, List.foldl_nil, List.nil_append]
    simp only [f1FieldViolations, List.length_append]
    split_ifs <;> simp

/-- Witness for C7: the theorem applied at a concrete view, discharging
each hypothesis. -/
theorem c7_f1_cross_view_rule_witness :
    checkCrossViewReferences ⟨[("plain", { name := "plain" })], [], []⟩ = []
    ∧ (checkCrossViewReferences (f1Demo "$\x7busers.name\x7d")).length = 1 :=
  ⟨(c7_f1_cross_view_rule [] [] [] [] "plain" "x" "dimension" { name := "plain" }
      ("f", { name := "f" })).2.1 (by decide),
   by
     have h := (c7_f1_cross_view_rule [] [] [] [] "orders" "x" "dimension"
        { name := "orders" } ("f", { name := "f" })).2.2.2.2.2.2.2.1
     rw [h]
     decide⟩

/-- The violations one applied rule contributes (its result list when the
check returns, nothing when it throws). -/
def runRuleResult (l : ParsedLookML) (rule : LookMLRule) : List RuleViolation :=
  match rule.check l with
  | .ok vs => vs
  | .error _ => []

/-- applyRulesWith is the fold of the per-rule contributions over the
looked-up rules. -/
theorem applyRulesWith_eq_foldl (table : List (String × LookMLRule))
    (l : ParsedLookML) (ids : List String) :
    applyRulesWith table l ids
      = (ids.filterMap (lookupRule table)).foldl
          (fun acc rule => acc ++ runRuleResult l rule) [] := by
  unfold applyRulesWith
  dsimp only
  congr 1
  funext acc rule
  simp only [runRuleResult]
  cases rule.check l <;> simp

/-- A filterMap only keeps the elements on which the function is some. -/
theorem filterMap_eq_filterMap_filter_isSome {α β : Type} (g : α → Option β)
    (l : List α) :
    l.filterMap g = (l.filter (fun a => (g a).isSome)).filterMap g := by
  induction l with
  | nil => rfl
  | cons x xs ih =>
    cases hx : g x <;>
      simp [List.filterMap_cons, List.filter_cons, hx, ih]

/-- Applied rules aggregate id by id. -/
theorem applyRulesWith_append (table : List (String × LookMLRule))
    (l : ParsedLookML) (ids1 ids2 : List String) :
    applyRulesWith table l (ids1 ++ ids2)
      = applyRulesWith table l ids1 ++ applyRulesWith table l ids2 := by
  simp only [applyRulesWith_eq_foldl, List.filterMap_append, List.foldl_append]
  rw [foldl_append_shift]

/-- One enabled id contributes exactly its rule's contribution. -/
theorem applyRulesWith_single (table : List (String × LookMLRule))
    (l : ParsedLookML) (id : String) :
    applyRulesWith table l [id]
      = match lookupRule table id with
        | some rule => runRuleResult l rule
        | none => [] := by
  rw [applyRulesWith_eq_foldl]
  cases h : lookupRule table id <;> simp [List.filterMap_cons, h]

/-- C8: rule-engine selection and isolation.  The active set is enabled
minus disabled; unknown rule ids contribute nothing and do not disturb the
others; the applied rules' violations are concatenated in order; a rule
whose check throws contributes nothing while the remaining rules still
contribute; and the full built-in catalogue aggregates the three checks. -/
theorem c8_rule_engine_selection_isolation
    (table : List (String × LookMLRule)) (l : ParsedLookML)
    (en dis ids ids1 ids2 : List String) :
    (∀ r : String, r ∈ activeRules en dis ↔ r ∈ en ∧ ¬ dis.contains r = true)
    ∧ applyRulesWith table l ids
        = applyRulesWith table l (ids.filter (fun id => (lookupRule table id).isSome))
    ∧ applyRulesWith table l (ids1 ++ ids2)
        = applyRulesWith table l ids1 ++ applyRulesWith table l ids2
    ∧ (∀ id, lookupRule table id = none → applyRulesWith table l [id] = [])
    ∧ (∀ id rule vs, lookupRule table id = some rule → rule.check l = .ok vs →
        applyRulesWith table l [id] = vs)
    ∧ (∀ id rule e, lookupRule table id = some rule → rule.check l = .error e →
        applyRulesWith table l [id] = [])
    ∧ (∀ (c1 c3 : List RuleViolation) (emsg : String),
        applyRulesWith
          [("a", ⟨"a", "", fun _ => .ok c1⟩),
           ("b", ⟨"b", "", fun _ => .error emsg⟩),
           ("c", ⟨"c", "", fun _ => .ok c3⟩)] l ["a", "b", "c"] = c1 ++ c3)
    ∧ applyRules l ["k1", "e1", "f1"]
        = checkPrimaryKeys l ++ checkJoinReferences l ++ checkCrossViewReferences l := by
  refine ⟨?_, ?_, applyRulesWith_append table l ids1 ids2, ?_, ?_, ?_, ?_, ?_⟩
  · intro r
    simp [activeRules, List.mem_filter]
  · unfold applyRulesWith
    rw [filterMap_eq_filterMap_filter_isSome]
  · intro id h
    rw [applyRulesWith_single, h]
  · intro id rule vs h hc
    rw [applyRulesWith_single, h]
    simp [runRuleResult, hc]
  · intro id rule e h hc
    rw [applyRulesWith_single, h]
    simp [runRuleResult, hc]
  · intro c1 c3 emsg
    simp [applyRulesWith, lookupRule, List.find?, List.filterMap_cons]
  · simp [applyRules, applyRulesWith, ALL_RULES, lookupRule, List.find?,
      List.filterMap_cons]

/-- Witness for C8: the theorem applied at concrete rule tables and ids,
discharging each hypothesis. -/
theorem c8_rule_engine_selection_isolation_witness :
    applyRules ⟨[], [], []⟩ ["k1"] = []
    ∧ applyRulesWith ALL_RULES ⟨[], [], []⟩ ["zz"] = []
    ∧ applyRulesWith
        [("a", ⟨"a", "", fun _ => .ok [⟨"a", "m", "warning", []⟩]⟩),
         ("b", ⟨"b", "", fun _ => .error "boom"⟩),
         ("c", ⟨"c", "", fun _ => .ok [⟨"c", "m2", "warning", []⟩]⟩)]
        ⟨[], [], []⟩ ["a", "b", "c"]
        = [⟨"a", "m", "warning", []⟩, ⟨"c", "m2", "warning", []⟩] :=
  ⟨by
    have h := (c8_rule_engine_selection_isolation ALL_RULES ⟨[], [], []⟩
        [] [] [] [] []).2.2.2.2.1 "k1"
        ⟨"k1", "Primary keys should be explicitly defined and follow naming conventions",
          fun l => .ok (checkPrimaryKeys l)⟩
        (checkPrimaryKeys ⟨[], [], []⟩) rfl rfl
    rw [show applyRules ⟨[], [], []⟩ ["k1"]
        = applyRulesWith ALL_RULES ⟨[], [], []⟩ ["k1"] from rfl, h]
    rfl,
   (c8_rule_engine_selection_isolation ALL_RULES ⟨[], [], []⟩
      [] [] [] [] []).2.2.2.1 "zz" rfl,
   (c8_rule_engine_selection_isolation ALL_RULES ⟨[], [], []⟩
      [] [] [] [] []).2.2.2.2.2.2.1 [⟨"a", "m", "warning", []⟩]
      [⟨"c", "m2", "warning", []⟩] "boom"⟩

/-- C10: applyRules does not deduplicate rule ids — n occurrences of the
same known id run the check n times and concatenate n copies of its
violations in order (shown for each of the three catalogue rules). -/
theorem c10_duplicate_rule_ids (l : ParsedLookML) (n : Nat) :
    applyRules l (List.replicate n "k1")
        = (List.replicate n (checkPrimaryKeys l)).flatten
    ∧ applyRules l (List.replicate n "e1")
        = (List.replicate n (checkJoinReferences l)).flatten
    ∧ applyRules l (List.replicate n "f1")
        = (List.replicate n (checkCrossViewReferences l)).flatten := by
  have key : ∀ (id : String) (vl : List RuleViolation),
      applyRulesWith ALL_RULES l [id] = vl →
      ∀ m : Nat, applyRulesWith ALL_RULES l (List.replicate m id)
        = (List.replicate m vl).flatten := by
    intro id vl h m
    induction m with
    | zero => rfl
    | succ k ih =>
      rw [List.replicate_succ, show (id :: List.replicate k id)
          = [id] ++ List.replicate k id from rfl,
        applyRulesWith_append, h, ih, List.replicate_succ]
      simp
  exact ⟨key "k1" (checkPrimaryKeys l) (by
      rw [applyRulesWith_single]
      rfl) n,
    key "e1" (checkJoinReferences l) (by
      rw [applyRulesWith_single]
      rfl) n,
    key "f1" (checkCrossViewReferences l) (by
      rw [applyRulesWith_single]
      rfl) n⟩

/-- Every rule of the built-in catalogue contributes nothing on the empty
structure. -/
theorem runRuleResult_ALL_RULES_empty (id : String) (rule : LookMLRule)
    (h : lookupRule ALL_RULES id = some rule) :
    runRuleResult ⟨[], [], []⟩ rule = [] := by
  unfold lookupRule at h
  rcases hfind : List.find? (fun p => p.1 == id) ALL_RULES with _ | p
  · rw [hfind] at h
    exact Option.noConfusion h
  · rw [hfind] at h
    rw [Option.map_some'] at h
    have hp := List.mem_of_find?_eq_some hfind
    simp only [ALL_RULES, List.mem_cons, List.not_mem_nil, or_false] at hp
    rcases hp with rfl | rfl | rfl <;> (injection h with h2; rw [← h2]; rfl)

/-- C9: totality on empty input.  The fallback parser returns the structure
with all three collections present (and empty) on the empty string, the
formatter returns the empty edit list on the empty string for every
configuration, linting the empty string returns no violations for every
rule-id list, and an input with an unterminated dimension and view block
still parses to a structure exposing the opened view. -/
theorem c9_totality_empty_input :
    parseLookMLSync "" = ({} : ParsedLookML)
    ∧ (∀ cfg : FormatConfig, formatDocument cfg "" = none)
    ∧ (∀ ids : List String, applyRules (parseLookMLSync "") ids = [])
    ∧ parseLookMLSync unterminatedDemo
        = { views := [("broken", { name := "broken" })] } := by
  refine ⟨by decide, ?_, ?_, by decide⟩
  · intro cfg
    rcases cfg with ⟨i, us, g, s⟩
    cases g <;> cases s <;> rfl
  · intro ids
    have hempty : parseLookMLSync "" = ({} : ParsedLookML) := by decide
    rw [hempty]
    induction ids with
    | nil => rfl
    | cons id rest ih =>
      have hsplit : applyRules ({} : ParsedLookML) (id :: rest)
          = applyRulesWith ALL_RULES ({} : ParsedLookML) [id]
            ++ applyRulesWith ALL_RULES ({} : ParsedLookML) rest := by
        rw [show (id :: rest) = [id] ++ rest from rfl]
        exact applyRulesWith_append _ _ _ _
      rw [hsplit, applyRulesWith_single]
      cases h : lookupRule ALL_RULES id with
      | none => simpa using ih
      | some rule =>
        have hrr := runRuleResult_ALL_RULES_empty id rule h
        simpa [hrr] using ih

/-- Witness for C9: the theorem applied at a concrete configuration and
rule-id list, discharging each hypothesis. -/
theorem c9_totality_empty_input_witness :
    formatDocument fmtCfg "" = none
    ∧ applyRules (parseLookMLSync "") ["k1", "e1", "f1", "zz"] = [] :=
  ⟨c9_totality_empty_input.2.1 fmtCfg,
   c9_totality_empty_input.2.2.1 ["k1", "e1", "f1", "zz"]⟩

set_option maxRecDepth 1000000

/-- C1 evaluation at the failing input: the formatter is not idempotent.
Formatting the two-section demo view produces demoPass1; formatting
demoPass1 again does not return the empty edit list but a changed text
demoPass2 (the markers between the Dimensions and Measures sections are
re-attached to the first measure and duplicated), and a third application
changes the text again. -/
theorem c1_idempotence_failure :
    formatApply fmtCfg demoText = demoPass1
    ∧ formatDocument fmtCfg demoPass1 = some demoPass2
    ∧ demoPass2 ≠ demoPass1
    ∧ formatApply fmtCfg (formatApply fmtCfg (formatApply fmtCfg demoText))
        ≠ formatApply fmtCfg (formatApply fmtCfg demoText) :=
  ⟨by decide, by decide, by decide, by decide⟩

/-- C2 evaluation at the failing input: the normalizer alters characters
inside an opaque ${…} atom.  formatSqlWithLookMLVars upper-cases the
keyword and inside the variable token, both at the function level and
through the full simple-formatter pipeline on a sql segment, so the exact
original spelling of the atom is not preserved. -/
theorem c2_opaque_atom_violation :
    formatSqlWithLookMLVars "$\x7ba.and\x7d = 1" = "$\x7ba.AND\x7d = 1"
    ∧ formatLinesL fmtCfg
        ["dimension: d \x7b".data, "sql:".data, "$\x7ba.and\x7d = 1".data,
         ";;".data, "\x7d".data]
        = ["dimension: d \x7b".data, "  sql: ".data,
           "      $\x7ba.AND\x7d = 1".data, "  ;;".data, "\x7d".data]
    ∧ hasSub "$\x7ba.and\x7d".data "$\x7ba.and\x7d = 1".data = true
    ∧ hasSub "$\x7ba.and\x7d".data
        (formatSqlWithLookMLVars "$\x7ba.and\x7d = 1").data = false :=
  ⟨by decide, by decide, by decide, by decide⟩

/-- Specification-side locator for the single-word keyword regexes: scan
left to right with the same boundary tests as replaceWordCIAux, but return
the decomposition point of the first case-insensitive whole-word occurrence
of `w` — the characters before it and the characters after it — instead of
splicing in a replacement. -/
def findWordCIAux (w : List Char) : Bool → List Char → Option (List Char × List Char)
  | _, [] => none
  | prevWord, c :: cs =>
    if !prevWord && ciPre w (c :: cs) && wbAfter w (c :: cs) then
      some ([], (c :: cs).drop w.length)
    else
      (findWordCIAux w (isWordChar c) cs).map (fun q => (c :: q.1, q.2))

/-- Locator for the first case-insensitive whole-word occurrence. -/
def findWordCI (w l : List Char) : Option (List Char × List Char) :=
  findWordCIAux w false l

/-- Specification-side locator for the two-word keyword regexes: the first
case-insensitive occurrence of `w1`, a nonempty whitespace run, and `w2`
ending at a word boundary. -/
def findPairCIAux (w1 w2 : List Char) : Bool → List Char → Option (List Char × List Char)
  | _, [] => none
  | prevWord, c :: cs =>
    let l := c :: cs
    let rest1 := l.drop w1.length
    let wsRun := rest1.takeWhile isWsChar
    let rest2 := rest1.drop wsRun.length
    if !prevWord && ciPre w1 l && wsRun.length ≥ 1 && ciPre w2 rest2 &&
        wbAfter w2 rest2 then
      some ([], rest2.drop w2.length)
    else
      (findPairCIAux w1 w2 (isWordChar c) cs).map (fun q => (c :: q.1, q.2))

/-- Locator for the first two-word keyword occurrence. -/
def findPairCI (w1 w2 l : List Char) : Option (List Char × List Char) :=
  findPairCIAux w1 w2 false l

/-- No two adjacent whitespace characters occur in the line (the collapse
clause of the amended C3 claim as a checkable predicate). -/
def noAdjacentWs : List Char → Bool
  | c1 :: c2 :: rest => (!(isWsChar c1 && isWsChar c2)) && noAdjacentWs (c2 :: rest)
  | _ => true

/-- Specification-side check of the original C3 operator clause: every
operator character among <, >, =, ! has a space character immediately on
each side (line boundaries excepted). -/
def opSpacedAux : Option Char → List Char → Bool
  | _, [] => true
  | prev, c :: cs =>
    (if isOpChar c then
      (match prev with | none => true | some p => p == ' ') &&
      (match cs with | [] => true | d :: _ => d == ' ')
     else true)
    && opSpacedAux (some c) cs

/-- Every operator character of the line is spaced on both sides. -/
def opCharsSpacedBothSides (l : List Char) : Bool := opSpacedAux none l

/-- A case-insensitive prefix is no longer than the list it prefixes. -/
theorem ciPre_length_le : ∀ (w l : List Char), ciPre w l = true → w.length ≤ l.length := by
  intro w
  induction w with
  | nil => intro l _; exact Nat.zero_le _
  | cons p ps ih =>
    intro l h
    cases l with
    | nil => simp [ciPre] at h
    | cons c cs =>
      simp only [ciPre, Bool.and_eq_true] at h
      have := ih cs h.2
      simp only [List.length_cons]
      omega

/-- A case-insensitive prefix agrees with the matched prefix of the list up
to lowerChar. -/
theorem ciPre_map_lower : ∀ (w l : List Char), ciPre w l = true →
    (l.take w.length).map lowerChar = w.map lowerChar := by
  intro w
  induction w with
  | nil => intro l _; simp
  | cons p ps ih =>
    intro l h
    cases l with
    | nil => simp [ciPre] at h
    | cons c cs =>
      simp only [ciPre, Bool.and_eq_true, beq_iff_eq] at h
      simp [List.take_succ_cons, ih cs h.2, h.1.symm]

/-- Taking back the length of a takeWhile run returns that run. -/
theorem take_length_takeWhile (p : Char → Bool) :
    ∀ l : List Char, l.take (l.takeWhile p).length = l.takeWhile p := by
  intro l
  induction l with
  | nil => rfl
  | cons c cs ih =>
    cases hp : p c <;> simp [List.takeWhile_cons, hp, ih]

/-- Every character of a takeWhile run satisfies the predicate. -/
theorem all_takeWhile_self (p : Char → Bool) :
    ∀ l : List Char, (l.takeWhile p).all p = true := by
  intro l
  induction l with
  | nil => rfl
  | cons c cs ih =>
    cases hp : p c <;> simp [List.takeWhile_cons, hp, ih]

/-- The single-word replacement equals locate-and-splice: a line without a
whole-word occurrence is returned unchanged, and otherwise the canonical
spelling is substituted for the located occurrence with every character
before and after it kept verbatim. -/
theorem replaceWordCIAux_eq_find (w canon : List Char) :
    ∀ (l : List Char) (b : Bool),
      replaceWordCIAux w canon b l =
        match findWordCIAux w b l with
        | none => l
        | some q => q.1 ++ canon ++ q.2 := by
  intro l
  induction l with
  | nil => intro b; rfl
  | cons c cs ih =>
    intro b
    by_cases h : (!b && ciPre w (c :: cs) && wbAfter w (c :: cs)) = true
    · simp [replaceWordCIAux, findWordCIAux, h]
    · simp only [replaceWordCIAux, findWordCIAux, if_neg h]
      rw [ih (isWordChar c)]
      cases hf : findWordCIAux w (isWordChar c) cs with
      | none => simp
      | some q => simp

/-- The single-word locator decomposes the line: the occurrence it cuts out
is a case-insensitive spelling of the keyword, and the line is exactly the
prefix, the occurrence and the suffix in order. -/
theorem findWordCIAux_decomp (w : List Char) :
    ∀ (l : List Char) (b : Bool) (pre rest : List Char),
      findWordCIAux w b l = some (pre, rest) →
      ∃ orig, l = pre ++ orig ++ rest ∧ orig.length = w.length ∧
        orig.map lowerChar = w.map lowerChar := by
  intro l
  induction l with
  | nil => intro b pre rest h; simp [findWordCIAux] at h
  | cons c cs ih =>
    intro b pre rest h
    by_cases hc : (!b && ciPre w (c :: cs) && wbAfter w (c :: cs)) = true
    · simp only [findWordCIAux, if_pos hc, Option.some.injEq, Prod.mk.injEq] at h
      obtain ⟨h1, h2⟩ := h
      have hci : ciPre w (c :: cs) = true := by
        simp only [Bool.and_eq_true] at hc
        exact hc.1.2
      refine ⟨(c :: cs).take w.length, ?_, ?_, ?_⟩
      · rw [← h1, ← h2]
        simp [List.take_append_drop]
      · have hle := ciPre_length_le w (c :: cs) hci
        simp only [List.length_take]
        omega
      · exact ciPre_map_lower w (c :: cs) hci
    · simp only [findWordCIAux, if_neg hc, Option.map_eq_some'] at h
      obtain ⟨⟨p1, p2⟩, ha, hpr⟩ := h
      injection hpr with hpre hrest
      obtain ⟨orig, heq, hlen, hmap⟩ := ih (isWordChar c) p1 p2 ha
      exact ⟨orig, by rw [← hpre, ← hrest]; simp [heq], hlen, hmap⟩

/-- The two-word replacement equals locate-and-splice. -/
theorem replacePairCIAux_eq_find (w1 w2 canon : List Char) :
    ∀ (l : List Char) (b : Bool),
      replacePairCIAux w1 w2 canon b l =
        match findPairCIAux w1 w2 b l with
        | none => l
        | some q => q.1 ++ canon ++ q.2 := by
  intro l
  induction l with
  | nil => intro b; rfl
  | cons c cs ih =>
    intro b
    rw [replacePairCIAux, findPairCIAux]
    split
    · simp
    · rw [ih (isWordChar c)]
      cases hf : findPairCIAux w1 w2 (isWordChar c) cs with
      | none => simp
      | some q => simp

/-- Splitting a list at a length, a whitespace run and a further length
recomposes it; used for the two-word locator decomposition. -/
theorem take_ws_take_split (l : List Char) (n1 n2 : Nat) :
    l = l.take n1 ++
      (((l.drop n1).takeWhile isWsChar ++
        (((l.drop n1).drop ((l.drop n1).takeWhile isWsChar).length).take n2 ++
         ((l.drop n1).drop ((l.drop n1).takeWhile isWsChar).length).drop n2))) := by
  conv_lhs => rw [← List.take_append_drop n1 l]
  congr 1
  conv_lhs =>
    rw [← List.take_append_drop ((l.drop n1).takeWhile isWsChar).length (l.drop n1)]
  rw [take_length_takeWhile]
  congr 1
  exact (List.take_append_drop _ _).symm

/-- The two-word locator decomposes the line: the occurrence it cuts out is
a case-insensitive spelling of the first word, a nonempty all-whitespace
run, and a case-insensitive spelling of the second word, and the line is
exactly the prefix, the occurrence and the suffix in order. -/
theorem findPairCIAux_decomp (w1 w2 : List Char) :
    ∀ (l : List Char) (b : Bool) (pre rest : List Char),
      findPairCIAux w1 w2 b l = some (pre, rest) →
      ∃ o1 gap o2, l = pre ++ (o1 ++ (gap ++ o2)) ++ rest ∧
        o1.map lowerChar = w1.map lowerChar ∧
        gap ≠ [] ∧ gap.all isWsChar = true ∧
        o2.map lowerChar = w2.map lowerChar := by
  intro l
  induction l with
  | nil => intro b pre rest h; simp [findPairCIAux] at h
  | cons c cs ih =>
    intro b pre rest h
    rw [findPairCIAux] at h
    split at h
    · rename_i hcond
      simp only [Option.some.injEq, Prod.mk.injEq] at h
      obtain ⟨h1, h2⟩ := h
      simp only [Bool.and_eq_true, decide_eq_true_eq] at hcond
      obtain ⟨⟨⟨⟨hb, hci1⟩, hws⟩, hci2⟩, hwb⟩ := hcond
      refine ⟨(c :: cs).take w1.length,
              ((c :: cs).drop w1.length).takeWhile isWsChar,
              (((c :: cs).drop w1.length).drop
                (((c :: cs).drop w1.length).takeWhile isWsChar).length).take w2.length,
              ?_, ?_, ?_, ?_, ?_⟩
      · rw [← h1, ← h2]
        simpa [List.append_assoc] using take_ws_take_split (c :: cs) w1.length w2.length
      · exact ciPre_map_lower w1 (c :: cs) hci1
      · intro hnil
        rw [hnil] at hws
        simp at hws
      · exact all_takeWhile_self isWsChar _
      · exact ciPre_map_lower w2 _ hci2
    · simp only [Option.map_eq_some'] at h
      obtain ⟨⟨p1, p2⟩, ha, hpr⟩ := h
      injection hpr with hpre hrest
      obtain ⟨o1, gap, o2, heq, hm1, hnil, hall, hm2⟩ := ih (isWordChar c) p1 p2 ha
      exact ⟨o1, gap, o2, by rw [← hpre, ← hrest]; simp [heq], hm1, hnil, hall, hm2⟩

/-- The after-operator spacing pass only inserts whitespace: the non-space
characters of the line are preserved exactly and in order. -/
theorem opSpaceAfter_filter_nonWs :
    ∀ l : List Char,
      (opSpaceAfter l).filter (fun c => !isWsChar c) =
        l.filter (fun c => !isWsChar c) := by
  have key : ∀ (n : Nat) (l : List Char), l.length ≤ n →
      (opSpaceAfter l).filter (fun c => !isWsChar c) =
        l.filter (fun c => !isWsChar c) := by
    intro n
    induction n with
    | zero =>
      intro l hl
      have : l = [] := List.eq_nil_of_length_eq_zero (Nat.le_zero.mp hl)
      subst this
      rfl
    | succ k ih =>
      intro l hl
      rcases l with _ | ⟨c1, _ | ⟨c2, rest⟩⟩
      · rfl
      · rfl
      · simp only [List.length_cons] at hl
        by_cases h : (isOpChar c1 && !(c2 == '=' || c2 == '<' || c2 == '>')
            && !isWsChar c2) = true
        · rw [opSpaceAfter, if_pos h]
          have hsp : isWsChar ' ' = true := by decide
          simp [List.filter_cons, hsp, ih rest (by omega)]
        · rw [opSpaceAfter, if_neg h]
          simp [List.filter_cons, ih (c2 :: rest) (by simp; omega)]
  intro l
  exact key l.length l (Nat.le_refl _)

/-- The before-operator spacing pass only inserts whitespace. -/
theorem opSpaceBefore_filter_nonWs :
    ∀ l : List Char,
      (opSpaceBefore l).filter (fun c => !isWsChar c) =
        l.filter (fun c => !isWsChar c) := by
  have key : ∀ (n : Nat) (l : List Char), l.length ≤ n →
      (opSpaceBefore l).filter (fun c => !isWsChar c) =
        l.filter (fun c => !isWsChar c) := by
    intro n
    induction n with
    | zero =>
      intro l hl
      have : l = [] := List.eq_nil_of_length_eq_zero (Nat.le_zero.mp hl)
      subst this
      rfl
    | succ k ih =>
      intro l hl
      rcases l with _ | ⟨c1, _ | ⟨c2, rest⟩⟩
      · rfl
      · rfl
      · simp only [List.length_cons] at hl
        by_cases h : (!isWsChar c1 && !isOpChar c1 && isOpChar c2) = true
        · rw [opSpaceBefore, if_pos h]
          have hsp : isWsChar ' ' = true := by decide
          simp [List.filter_cons, hsp, ih rest (by omega)]
        · rw [opSpaceBefore, if_neg h]
          simp [List.filter_cons, ih (c2 :: rest) (by simp; omega)]
  intro l
  exact key l.length l (Nat.le_refl _)

/-- Dropping a leading whitespace run does not change the non-space
characters of a line. -/
theorem filter_nonWs_dropWhile :
    ∀ l : List Char,
      (l.dropWhile isWsChar).filter (fun c => !isWsChar c) =
        l.filter (fun c => !isWsChar c) := by
  intro l
  induction l with
  | nil => rfl
  | cons c cs ih =>
    cases hc : isWsChar c <;>
      simp [List.dropWhile_cons, hc, ih, List.filter_cons]

/-- The whitespace-collapsing pass preserves the non-space characters of
the line exactly and in order, for every fuel value. -/
theorem collapseWsF_filter_nonWs :
    ∀ (fuel : Nat) (l : List Char),
      (collapseWsF fuel l).filter (fun c => !isWsChar c) =
        l.filter (fun c => !isWsChar c) := by
  intro fuel
  induction fuel with
  | zero => intro l; rfl
  | succ k ih =>
    intro l
    rcases l with _ | ⟨c1, _ | ⟨c2, rest⟩⟩
    · rfl
    · rfl
    · by_cases h : (isWsChar c1 && isWsChar c2) = true
      · rw [collapseWsF, if_pos h]
        rw [Bool.and_eq_true] at h
        obtain ⟨h1, h2⟩ := h
        have hsp : isWsChar ' ' = true := by decide
        simp [List.filter_cons, hsp, h1, h2, ih, filter_nonWs_dropWhile rest]
      · rw [collapseWsF, if_neg h]
        simp [List.filter_cons, ih]

/-- The whitespace-collapsing pass preserves the non-space characters. -/
theorem collapseWs_filter_nonWs (l : List Char) :
    (collapseWs l).filter (fun c => !isWsChar c) =
      l.filter (fun c => !isWsChar c) :=
  collapseWsF_filter_nonWs l.length l

/-- collapseWsF of the empty line is empty for every fuel value. -/
theorem collapseWsF_nil (fuel : Nat) : collapseWsF fuel [] = [] := by
  cases fuel <;> rfl

/-- collapseWsF keeps a non-whitespace head character in place. -/
theorem collapseWsF_cons_nonWs (fuel : Nat) (c : Char) (cs : List Char)
    (h : isWsChar c = false) :
    ∃ out, collapseWsF fuel (c :: cs) = c :: out := by
  cases fuel with
  | zero => exact ⟨cs, rfl⟩
  | succ k =>
    cases cs with
    | nil => exact ⟨[], rfl⟩
    | cons c2 rest =>
      have hcond : (isWsChar c && isWsChar c2) = false := by simp [h]
      exact ⟨collapseWsF k (c2 :: rest), by rw [collapseWsF, if_neg (by simp [hcond])]⟩

/-- The head of a dropWhile result does not satisfy the predicate. -/
theorem dropWhile_head_not_ws :
    ∀ (l : List Char) (c : Char) (cs : List Char),
      l.dropWhile isWsChar = c :: cs → isWsChar c = false := by
  intro l
  induction l with
  | nil => intro c cs h; simp at h
  | cons x xs ih =>
    intro c cs h
    cases hx : isWsChar x with
    | true =>
      rw [List.dropWhile_cons, if_pos (by simp [hx])] at h
      exact ih c cs h
    | false =>
      rw [List.dropWhile_cons, if_neg (by simp [hx])] at h
      injection h with h1 h2
      rw [← h1]
      exact hx

/-- The output of the whitespace-collapsing pass never holds two adjacent
whitespace characters, given enough fuel (fuel = length is enough). -/
theorem collapseWsF_noAdjacentWs :
    ∀ (fuel : Nat) (l : List Char), l.length ≤ fuel →
      noAdjacentWs (collapseWsF fuel l) = true := by
  intro fuel
  induction fuel with
  | zero =>
    intro l hl
    have : l = [] := List.eq_nil_of_length_eq_zero (Nat.le_zero.mp hl)
    subst this
    rfl
  | succ k ih =>
    intro l hl
    rcases l with _ | ⟨c1, _ | ⟨c2, rest⟩⟩
    · rfl
    · rfl
    · simp only [List.length_cons] at hl
      by_cases h : (isWsChar c1 && isWsChar c2) = true
      · rw [collapseWsF, if_pos h]
        have hlen : (rest.dropWhile isWsChar).length ≤ k := by
          have := (List.dropWhile_sublist (l := rest) (p := isWsChar)).length_le
          omega
        have hrec := ih (rest.dropWhile isWsChar) hlen
        cases hdw : rest.dropWhile isWsChar with
        | nil =>
          rw [collapseWsF_nil]
          rfl
        | cons d ds =>
          have hd : isWsChar d = false := dropWhile_head_not_ws rest d ds hdw
          obtain ⟨out, hout⟩ := collapseWsF_cons_nonWs k d ds hd
          rw [hdw] at hrec
          rw [hout] at hrec ⊢
          simp only [noAdjacentWs, Bool.and_eq_true]
          exact ⟨by simp [hd], hrec⟩
      · rw [collapseWsF, if_neg h]
        have hlen : (c2 :: rest).length ≤ k := by simp; omega
        have hrec := ih (c2 :: rest) hlen
        cases hc2 : isWsChar c2 with
        | false =>
          obtain ⟨out, hout⟩ := collapseWsF_cons_nonWs k c2 rest hc2
          rw [hout] at hrec ⊢
          simp only [noAdjacentWs, Bool.and_eq_true]
          exact ⟨by simp [hc2], hrec⟩
        | true =>
          have hc1 : isWsChar c1 = false := by
            cases hh : isWsChar c1
            · rfl
            · rw [hh, hc2] at h
              simp at h
          cases hcf : collapseWsF k (c2 :: rest) with
          | nil => rfl
          | cons y ys =>
            rw [hcf] at hrec
            simp only [noAdjacentWs, Bool.and_eq_true]
            exact ⟨by simp [hc1], hrec⟩

/-- The whitespace-collapsing pass leaves no two adjacent whitespace
characters. -/
theorem collapseWs_noAdjacentWs (l : List Char) :
    noAdjacentWs (collapseWs l) = true :=
  collapseWsF_noAdjacentWs l.length l (Nat.le_refl _)

/-- C3 counterexample: the claim fails on the code in both of its clauses.
The keyword regexes carry no global flag, so "a or b or c" becomes
"a OR b or c" and not "a OR b OR c"; and the spacing regexes skip an
operator character whose neighbour is itself one of =, <, >, so "a>=1"
becomes "a >= 1" — in which neither '>' nor '=' has a space on each side —
and not "a > = 1" as per-character spacing would give. -/
theorem c3_sql_keyword_counterexample :
    formatSqlKeywords "a or b or c" = "a OR b or c"
    ∧ formatSqlKeywords "a or b or c" ≠ "a OR b OR c"
    ∧ formatSqlKeywords "a>=1" = "a >= 1"
    ∧ opCharsSpacedBothSides (formatSqlKeywords "a>=1").data = false
    ∧ formatSqlKeywords "a>=1" ≠ "a > = 1" :=
  ⟨by decide, by decide, by decide, by decide, by decide⟩

/-- C3 amended: on every SQL content line outside opaque atoms, each
keyword regex rewrites only the FIRST case-insensitive whole-word
occurrence of its keyword to the canonical upper-case spelling, keeping
every character before and after that occurrence verbatim — so later
occurrences of the same keyword in the line stay unchanged — with two-word
keywords matching across a nonempty whitespace run (first two universally
quantified conjunct pairs: replacement equals locate-and-splice, and the
located occurrence is a case-insensitive spelling of the keyword).  The
three spacing passes then only insert or collapse whitespace, never
altering or reordering the non-whitespace characters, and the collapse
leaves no two adjacent whitespace characters (fifth conjunct, universally
quantified); a space is inserted after an operator character whose next
character is none of '=', '<', '>' and not whitespace — a class that still
holds '!' — and before an operator character whose previous character is
neither whitespace nor an operator, matched pairs being consumed as in a
global regex.  A lone operator between ordinary characters thus gets one
space on each side (a>1 becomes a > 1) while compound sequences stay
adjacent and are spaced as a unit (a>=1 becomes a >= 1, a!=b becomes
a != b), and a>!b becomes a > !b (final concrete conjuncts, including the
claim's own example line). -/
theorem c3_sql_keyword_first_occurrence :
    (∀ w canon l : List Char,
        replaceWordCI w canon l =
          match findWordCI w l with
          | none => l
          | some q => q.1 ++ canon ++ q.2)
    ∧ (∀ w l pre rest : List Char, findWordCI w l = some (pre, rest) →
        ∃ orig, l = pre ++ orig ++ rest ∧ orig.length = w.length ∧
          orig.map lowerChar = w.map lowerChar)
    ∧ (∀ w1 w2 canon l : List Char,
        replacePairCI w1 w2 canon l =
          match findPairCI w1 w2 l with
          | none => l
          | some q => q.1 ++ canon ++ q.2)
    ∧ (∀ w1 w2 l pre rest : List Char, findPairCI w1 w2 l = some (pre, rest) →
        ∃ o1 gap o2, l = pre ++ (o1 ++ (gap ++ o2)) ++ rest ∧
          o1.map lowerChar = w1.map lowerChar ∧
          gap ≠ [] ∧ gap.all isWsChar = true ∧
          o2.map lowerChar = w2.map lowerChar)
    ∧ (∀ l : List Char,
        (opSpaceAfter l).filter (fun c => !isWsChar c) =
          l.filter (fun c => !isWsChar c)
        ∧ (opSpaceBefore l).filter (fun c => !isWsChar c) =
          l.filter (fun c => !isWsChar c)
        ∧ (collapseWs l).filter (fun c => !isWsChar c) =
          l.filter (fun c => !isWsChar c)
        ∧ noAdjacentWs (formatSqlKeywordsL l) = true)
    ∧ (formatSqlKeywords "select a from b where a>1" = "SELECT a FROM b WHERE a > 1"
        ∧ formatSqlKeywords "a or b or c" = "a OR b or c"
        ∧ formatSqlKeywords "select x select y" = "SELECT x select y"
        ∧ formatSqlKeywords "a>1" = "a > 1"
        ∧ opCharsSpacedBothSides (formatSqlKeywords "a>1").data = true
        ∧ formatSqlKeywords "a>=1" = "a >= 1"
        ∧ formatSqlKeywords "a!=b" = "a != b"
        ∧ formatSqlKeywords "a>!b" = "a > !b"
        ∧ formatSqlKeywords "x  =  y" = "x = y") := by
  refine ⟨?_, ?_, ?_, ?_, ?_, ?_⟩
  · intro w canon l
    exact replaceWordCIAux_eq_find w canon l false
  · intro w l pre rest h
    exact findWordCIAux_decomp w l false pre rest h
  · intro w1 w2 canon l
    exact replacePairCIAux_eq_find w1 w2 canon l false
  · intro w1 w2 l pre rest h
    exact findPairCIAux_decomp w1 w2 l false pre rest h
  · intro l
    refine ⟨opSpaceAfter_filter_nonWs l, opSpaceBefore_filter_nonWs l,
            collapseWs_filter_nonWs l, ?_⟩
    show noAdjacentWs (collapseWs (opSpaceBefore (opSpaceAfter
      (sqlKeywords.foldl applySqlKeyword l)))) = true
    exact collapseWs_noAdjacentWs _
  · exact ⟨by decide, by decide, by decide, by decide, by decide, by decide,
      by decide, by decide, by decide⟩

/-- Witness for the amended C3 theorem: its hypothesis-bearing conjuncts
applied at concrete inputs — the first "or" of "a or b or c" and the
"group  by" pair of "x group  by y" are located and decomposed. -/
theorem c3_sql_keyword_first_occurrence_witness :
    (∃ orig, "a or b or c".data = "a ".data ++ orig ++ " b or c".data
        ∧ orig.length = ("OR".data).length
        ∧ orig.map lowerChar = ("OR".data).map lowerChar)
    ∧ (∃ o1 gap o2, "x group  by y".data
          = "x ".data ++ (o1 ++ (gap ++ o2)) ++ " y".data
        ∧ o1.map lowerChar = ("GROUP".data).map lowerChar
        ∧ gap ≠ [] ∧ gap.all isWsChar = true
        ∧ o2.map lowerChar = ("BY".data).map lowerChar) :=
  ⟨c3_sql_keyword_first_occurrence.2.1 "OR".data "a or b or c".data
      "a ".data " b or c".data (by decide),
   c3_sql_keyword_first_occurrence.2.2.2.1 "GROUP".data "BY".data
      "x group  by y".data "x ".data " y".data (by decide)⟩

/-- C4: grouping and sorting.  Formatting the view declared in the order
[measure total_sales, dimension zebra, dimension apple] with grouping and
sorting enabled emits the dimensions section before the measures section
regardless of source order, with apple before zebra inside the
Dimensions marker pair and total_sales inside the Measures marker pair
(the line indexes in the output witness presence and relative order of
every marker and field). -/
theorem c4_grouping_sorting :
    formatApply fmtCfg demoText = demoPass1
    ∧ (let ls := splitNL demoPass1.data
       ls.findIdx (fun l => l == "  # ----- Dimensions -----".data) = 3
       ∧ ls.findIdx (fun l => l == "  dimension: apple \x7b".data) = 5
       ∧ ls.findIdx (fun l => l == "  dimension: zebra \x7b".data) = 9
       ∧ ls.findIdx (fun l => l == "  # ----- End of Dimensions -----".data) = 12
       ∧ ls.findIdx (fun l => l == "  # ----- Measures -----".data) = 13
       ∧ ls.findIdx (fun l => l == "  measure: total_sales \x7b".data) = 15
       ∧ ls.findIdx (fun l => l == "  # ----- End of Measures -----".data) = 18) :=
  ⟨by decide, by decide⟩

end LookML
